import Mathlib

/-!
Verification development for the `kes` event-stream module (`log.go`).

The module exposes two pull iterators, `ErrorStream` and `AuditStream`,
over a JSON record stream, plus a drain-to-writer operation (`WriteTo`)
and an idempotent-close/sticky-error state machine.  We shallowly embed
the Go code: the `json.Decoder` becomes an explicit state holding the
remaining records (each pre-classified as well-formed or malformed, with
a sticky decoder error, matching `encoding/json`'s sticky syntax errors),
the optional `io.Closer` becomes an `Option` holding the close result,
and each method becomes a state-passing function.  A ghost counter
`closerCalls` records how many times the underlying closer was invoked.
-/

namespace Kes

/-- Go `error` values observed by the stream: decode failures
(JSON syntax errors, `UnmarshalTypeError`s), close failures and
write failures.  `none : Option GoError` models a nil error. -/
inductive GoError where
  | decodeSyntax (msg : String)
  | decodeType (field : String)
  | closeFailed (msg : String)
  | writeFailed (msg : String)
deriving DecidableEq, Repr

/-- Which errors count as decode errors (spec §7 DecodeError). -/
def GoError.isDecodeErr : GoError → Bool
  | .decodeSyntax _ => true
  | .decodeType _ => true
  | _ => false

/-- One record on the wire, pre-classified: either it decodes to a raw
record value `r`, or it is malformed and decoding it yields error `e`. -/
inductive DecItem (ρ : Type) where
  | ok (r : ρ)
  | bad (e : GoError)
deriving DecidableEq, Repr

/-- Outcome of one `json.Decoder.Decode` call: a value, `io.EOF`,
or a decode error. -/
inductive DecOut (ρ : Type) where
  | okRes (r : ρ)
  | eofRes
  | failRes (e : GoError)
deriving DecidableEq, Repr

/-- Model of a `json.Decoder`: the remaining input records and the
decoder's sticky error (`encoding/json` keeps returning the same
error once the token stream is broken). -/
structure Decoder (ρ : Type) where
  input : List (DecItem ρ)
  stickyErr : Option GoError
deriving DecidableEq, Repr

/-- One `Decode` call: sticky error if present; `io.EOF` past the last
record; otherwise consume a good record or get stuck on a bad one. -/
def Decoder.decode {ρ : Type} (d : Decoder ρ) : DecOut ρ × Decoder ρ :=
  match d.stickyErr with
  | some e => (.failRes e, d)
  | none =>
    match d.input with
    | [] => (.eofRes, d)
    | .ok r :: rest => (.okRes r, ⟨rest, none⟩)
    | .bad e :: rest => (.failRes e, ⟨.bad e :: rest, some e⟩)

/-- Behaviour of the destination `io.Writer` for one `Write` call:
either accept the whole buffer, or accept only `k` bytes and fail
with `e`.  An exhausted behaviour list accepts everything. -/
inductive SinkStep where
  | accept
  | failAfter (k : Nat) (e : GoError)
deriving DecidableEq, Repr

/-- Model of `countWriter` (log.go:252-255): the wrapped writer's
remaining behaviour and the accumulated byte count `N`. -/
structure CountWriter where
  sink : List SinkStep
  n : Int
deriving DecidableEq, Repr

/-- `countWriter.Write` (log.go:257-261): forward the buffer to the
underlying writer, add the bytes it accepted to `N`, return its error.
Buffers are modelled as `String`s; a write of `p` counts `p.length`. -/
def CountWriter.write (cw : CountWriter) (p : String) : Option GoError × CountWriter :=
  match cw.sink with
  | [] => (none, ⟨[], cw.n + p.length⟩)
  | .accept :: rest => (none, ⟨rest, cw.n + p.length⟩)
  | .failAfter k e :: rest => (some e, ⟨rest, cw.n + (min k p.length : Nat)⟩)

/-- JSON string escaping as Go's `encoding/json` encoder performs it
(quotes, backslash, control characters, and HTML-relevant characters). -/
def jsonEscapeChar (c : Char) : String :=
  if c = '"' then "\\\""
  else if c = '\\' then "\\\\"
  else if c = '\n' then "\\n"
  else if c = '\r' then "\\r"
  else if c = '\t' then "\\t"
  else if c = '<' then "\\u003c"
  else if c = '>' then "\\u003e"
  else if c = '&' then "\\u0026"
  else if c.toNat < 32 then
    "\\u00" ++ String.singleton (Nat.digitChar (c.toNat / 16)) ++
      String.singleton (Nat.digitChar (c.toNat % 16))
  else String.singleton c

/-- A JSON string literal for `s`. -/
def jsonQuote (s : String) : String :=
  "\"" ++ String.join (s.toList.map jsonEscapeChar) ++ "\""

/-- The raw error record: the anonymous `Response` struct with a single
`message` field used by `ErrorStream.Next` and `ErrorStream.WriteTo`. -/
structure ErrResponse where
  message : String
deriving DecidableEq, Repr

/-- `ErrorEvent` (log.go:17-19). -/
structure ErrorEvent where
  Message : String
deriving DecidableEq, Repr

/-- Re-encoding of one error record as `json.Encoder.Encode` produces it:
`{"message":<string>}` followed by a newline. -/
def encodeErrResponse (r : ErrResponse) : String :=
  "\x7b" ++ jsonQuote "message" ++ ":" ++ jsonQuote r.message ++ "\x7d" ++ "\n"

/-- `ErrorStream` (log.go:35-42).  `closer = none` models a reader without
an `io.Closer`; `closer = some res` models a closer whose `Close()` call
returns `res`.  `closerCalls` is a ghost counter of closer invocations. -/
structure ErrorStream where
  decoder : Decoder ErrResponse
  closer : Option (Option GoError)
  event : ErrorEvent
  err : Option GoError
  closed : Bool
  closerCalls : Nat
deriving DecidableEq, Repr

/-- `NewErrorStream` (log.go:23-31): fresh decoder over the reader's
records, closer capability detected from the reader, zero-value event. -/
def NewErrorStream (input : List (DecItem ErrResponse))
    (closer : Option (Option GoError)) : ErrorStream :=
  ⟨⟨input, none⟩, closer, ⟨""⟩, none, false, 0⟩

/-- `ErrorStream.Event` (log.go:45). -/
def ErrorStream.Event (s : ErrorStream) : ErrorEvent := s.event

/-- `ErrorStream.Message` (log.go:49). -/
def ErrorStream.Message (s : ErrorStream) : String := s.event.Message

/-- `ErrorStream.Close` (log.go:105-118): on the first call mark closed
and, if a closer is present, close it, store its error only when no
error was stored, and return the closer's error; otherwise return the
stored error. -/
def ErrorStream.Close (s : ErrorStream) : Option GoError × ErrorStream :=
  if !s.closed then
    let s1 : ErrorStream := {s with closed := true}
    match s1.closer with
    | some res =>
      let s2 : ErrorStream := {s1 with closerCalls := s1.closerCalls + 1}
      let s3 : ErrorStream := if s2.err = none then {s2 with err := res} else s2
      (res, s3)
    | none => (s1.err, s1)
  else (s.err, s)

/-- `ErrorStream.Next` (log.go:55-74): bail out if an error is stored or
the stream is closed; otherwise decode one record, mapping success to a
stored `ErrorEvent`, `io.EOF` to `s.err = s.Close()`, and any other
decode error to a stored error. -/
def ErrorStream.Next (s : ErrorStream) : Bool × ErrorStream :=
  if s.err.isSome || s.closed then (false, s)
  else
    match s.decoder.decode with
    | (.okRes r, d) => (true, {s with decoder := d, event := ⟨r.message⟩})
    | (.eofRes, d) =>
      let s1 : ErrorStream := {s with decoder := d}
      let (e, s2) := s1.Close
      (false, {s2 with err := e})
    | (.failRes e, d) => (false, {s with decoder := d, err := some e})

/-- Modelled from the spec: the spec's `Err()` error query is not part of
src/log.go (which only stores the `err` field); modelled as returning the
stored sticky error field. -/
def ErrorStream.Err (s : ErrorStream) : Option GoError := s.err

theorem Decoder.decode_ok_lt {ρ : Type} {d d' : Decoder ρ} {r : ρ}
    (h : d.decode = (.okRes r, d')) : d'.input.length < d.input.length := by
  unfold Decoder.decode at h
  rcases d with ⟨input, sticky⟩
  cases sticky with
  | some e => simp at h
  | none =>
    cases input with
    | nil => simp at h
    | cons i rest =>
      cases i with
      | ok r' =>
        simp at h
        obtain ⟨-, h2⟩ := h
        simp [← h2]
      | bad e => simp at h

/-- `ErrorStream.WriteTo`'s loop (log.go:86-100), carrying the
`countWriter` wrapped around the destination: decode a record, stop on
EOF (closing the stream) or on a decode error, otherwise re-encode the
raw record through the counting writer and continue. -/
def ErrorStream.writeToLoop (s : ErrorStream) (cw : CountWriter) :
    (Int × Option GoError) × ErrorStream :=
  match h : s.decoder.decode with
  | (.okRes r, d) =>
    let s1 : ErrorStream := {s with decoder := d}
    let (werr, cw') := cw.write (encodeErrResponse r)
    match werr with
    | some e => ((cw'.n, some e), {s1 with err := some e})
    | none => s1.writeToLoop cw'
  | (.eofRes, d) =>
    let s1 : ErrorStream := {s with decoder := d}
    let (e, s2) := s1.Close
    ((cw.n, e), {s2 with err := e})
  | (.failRes e, d) => ((cw.n, some e), {s with decoder := d, err := some e})
termination_by s.decoder.input.length
decreasing_by
  simpa using Decoder.decode_ok_lt h

/-- `ErrorStream.WriteTo` (log.go:79-101): fresh `countWriter` over `w`,
then the relay loop. -/
def ErrorStream.WriteTo (s : ErrorStream) (w : List SinkStep) :
    (Int × Option GoError) × ErrorStream :=
  s.writeToLoop ⟨w, 0⟩

theorem ErrorStream.next_true_lt {s s' : ErrorStream}
    (h : s.Next = (true, s')) :
    s'.decoder.input.length < s.decoder.input.length := by
  unfold ErrorStream.Next at h
  by_cases hg : (s.err.isSome || s.closed) = true
  · simp [hg] at h
  · simp only [hg, if_neg, Bool.not_eq_true] at h
    rcases hd : s.decoder.decode with ⟨o, d⟩
    cases o with
    | okRes r =>
      rw [hd] at h
      simp at h
      have hlt := Decoder.decode_ok_lt hd
      rw [← h]
      simpa using hlt
    | eofRes => rw [hd] at h; simp at h
    | failRes e => rw [hd] at h; simp at h

/-- Manual iteration: call `Next` repeatedly, collecting the stored event
after each successful call, until `Next` reports false. -/
def ErrorStream.collect (s : ErrorStream) : List ErrorEvent × ErrorStream :=
  match h : s.Next with
  | (true, s') =>
    let (evs, s2) := s'.collect
    (s'.event :: evs, s2)
  | (false, s') => ([], s')
termination_by s.decoder.input.length
decreasing_by
  exact ErrorStream.next_true_lt h

/-- Manual iteration to completion: the stream state after calling `Next`
until it reports false. -/
def ErrorStream.iterate (s : ErrorStream) : ErrorStream :=
  match h : s.Next with
  | (true, s') => s'.iterate
  | (false, s') => s'
termination_by s.decoder.input.length
decreasing_by
  exact ErrorStream.next_true_lt h

/-- Model of `time.Time` as it appears here: the validated RFC3339 text
it was unmarshalled from (re-marshalling quotes that text). -/
abbrev GoTime := String

/-- Model of `net.IP`: the validated address text (empty = nil IP). -/
abbrev GoIP := String

/-- Modelled from the spec: the `Identity` type is declared outside
src/log.go; per spec §6 the `identity` wire field is a plain string. -/
abbrev Identity := String

/-- Model of `time.Duration`: an `int64` count of nanoseconds. -/
abbrev GoDuration := Int

/-- The raw audit record: the anonymous `Response` struct of
`AuditStream.Next` / `AuditStream.WriteTo` (log.go:164-175). -/
structure AuditResponse where
  timestamp : GoTime
  reqIP : GoIP
  reqPath : String
  reqIdentity : Identity
  respCode : Int
  respTime : GoDuration
deriving DecidableEq, Repr

/-- `AuditEvent` (log.go:122-131). -/
structure AuditEvent where
  Timestamp : GoTime
  APIPath : String
  ClientIP : GoIP
  ClientIdentity : Identity
  StatusCode : Int
  ResponseTime : GoDuration
deriving DecidableEq, Repr

/-- Re-encoding of one audit record as `json.Encoder.Encode` produces it:
the nested object with `time`, `request` and `response`, a trailing
newline; `time.Time` re-marshals as a quoted RFC3339 text, `net.IP` as
its quoted text form, `time.Duration` as an integer nanosecond count. -/
def encodeAuditResponse (r : AuditResponse) : String :=
  "\x7b" ++ jsonQuote "time" ++ ":" ++ jsonQuote r.timestamp ++ ","
    ++ jsonQuote "request" ++ ":\x7b"
      ++ jsonQuote "ip" ++ ":" ++ jsonQuote r.reqIP ++ ","
      ++ jsonQuote "path" ++ ":" ++ jsonQuote r.reqPath ++ ","
      ++ jsonQuote "identity" ++ ":" ++ jsonQuote r.reqIdentity ++ "\x7d,"
    ++ jsonQuote "response" ++ ":\x7b"
      ++ jsonQuote "code" ++ ":" ++ toString r.respCode ++ ","
      ++ jsonQuote "time" ++ ":" ++ toString r.respTime ++ "\x7d\x7d"
    ++ "\n"

/-- `AuditStream` (log.go:147-154); fields model as in `ErrorStream`. -/
structure AuditStream where
  decoder : Decoder AuditResponse
  closer : Option (Option GoError)
  event : AuditEvent
  err : Option GoError
  closed : Bool
  closerCalls : Nat
deriving DecidableEq, Repr

/-- `NewAuditStream` (log.go:135-143). -/
def NewAuditStream (input : List (DecItem AuditResponse))
    (closer : Option (Option GoError)) : AuditStream :=
  ⟨⟨input, none⟩, closer, ⟨"", "", "", "", 0, 0⟩, none, false, 0⟩

/-- `AuditStream.Event` (log.go:157). -/
def AuditStream.Event (s : AuditStream) : AuditEvent := s.event

/-- `AuditStream.Close` (log.go:237-250); same shape as
`ErrorStream.Close`. -/
def AuditStream.Close (s : AuditStream) : Option GoError × AuditStream :=
  if !s.closed then
    let s1 : AuditStream := {s with closed := true}
    match s1.closer with
    | some res =>
      let s2 : AuditStream := {s1 with closerCalls := s1.closerCalls + 1}
      let s3 : AuditStream := if s2.err = none then {s2 with err := res} else s2
      (res, s3)
    | none => (s1.err, s1)
  else (s.err, s)

/-- `AuditStream.Next` (log.go:163-197): guard `s.closed || s.err != nil`,
then decode one audit record and map it to an `AuditEvent`
(log.go:188-195). -/
def AuditStream.Next (s : AuditStream) : Bool × AuditStream :=
  if s.closed || s.err.isSome then (false, s)
  else
    match s.decoder.decode with
    | (.okRes r, d) =>
      (true, {s with decoder := d,
                     event := ⟨r.timestamp, r.reqPath, r.reqIP,
                               r.reqIdentity, r.respCode, r.respTime⟩})
    | (.eofRes, d) =>
      let s1 : AuditStream := {s with decoder := d}
      let (e, s2) := s1.Close
      (false, {s2 with err := e})
    | (.failRes e, d) => (false, {s with decoder := d, err := some e})

/-- Modelled from the spec: the spec's `Err()` error query is not part of
src/log.go; modelled as returning the stored sticky error field. -/
def AuditStream.Err (s : AuditStream) : Option GoError := s.err

/-- `AuditStream.WriteTo`'s loop (log.go:218-232). -/
def AuditStream.writeToLoop (s : AuditStream) (cw : CountWriter) :
    (Int × Option GoError) × AuditStream :=
  match h : s.decoder.decode with
  | (.okRes r, d) =>
    let s1 : AuditStream := {s with decoder := d}
    let (werr, cw') := cw.write (encodeAuditResponse r)
    match werr with
    | some e => ((cw'.n, some e), {s1 with err := some e})
    | none => s1.writeToLoop cw'
  | (.eofRes, d) =>
    let s1 : AuditStream := {s with decoder := d}
    let (e, s2) := s1.Close
    ((cw.n, e), {s2 with err := e})
  | (.failRes e, d) => ((cw.n, some e), {s with decoder := d, err := some e})
termination_by s.decoder.input.length
decreasing_by
  simpa using Decoder.decode_ok_lt h

/-- `AuditStream.WriteTo` (log.go:202-233). -/
def AuditStream.WriteTo (s : AuditStream) (w : List SinkStep) :
    (Int × Option GoError) × AuditStream :=
  s.writeToLoop ⟨w, 0⟩

theorem AuditStream.next_true_lt_a {s s' : AuditStream}
    (h : s.Next = (true, s')) :
    s'.decoder.input.length < s.decoder.input.length := by
  unfold AuditStream.Next at h
  by_cases hg : (s.closed || s.err.isSome) = true
  · simp [hg] at h
  · simp only [hg, if_neg, Bool.not_eq_true] at h
    rcases hd : s.decoder.decode with ⟨o, d⟩
    cases o with
    | okRes r =>
      rw [hd] at h
      simp at h
      have hlt := Decoder.decode_ok_lt hd
      rw [← h]
      simpa using hlt
    | eofRes => rw [hd] at h; simp at h
    | failRes e => rw [hd] at h; simp at h

/-- Manual iteration collecting events, as for `ErrorStream`. -/
def AuditStream.collect (s : AuditStream) : List AuditEvent × AuditStream :=
  match h : s.Next with
  | (true, s') =>
    let (evs, s2) := s'.collect
    (s'.event :: evs, s2)
  | (false, s') => ([], s')
termination_by s.decoder.input.length
decreasing_by
  exact AuditStream.next_true_lt_a h

/-- Manual iteration to completion, as for `ErrorStream`. -/
def AuditStream.iterate (s : AuditStream) : AuditStream :=
  match h : s.Next with
  | (true, s') => s'.iterate
  | (false, s') => s'
termination_by s.decoder.input.length
decreasing_by
  exact AuditStream.next_true_lt_a h

/-! ### Wire-level model of one audit record

`AuditStream.Next` asks `encoding/json` to unmarshal one JSON value into
its anonymous `Response` struct.  To settle the wire-level claims we
model the JSON value and the unmarshalling rules for exactly that
struct: `time.Time` accepts a quoted RFC3339 text, `net.IP` accepts its
text form via `UnmarshalText`, and `time.Duration` is a bare `int64`
with no unmarshaler, so it accepts only JSON numbers. -/

/-- A decoded JSON value (numbers restricted to integers, which covers
every field of the records at hand). -/
inductive Json where
  | null
  | boolean (b : Bool)
  | num (n : Int)
  | str (s : String)
  | arr (elems : List Json)
  | obj (fields : List (String × Json))

/-- Last-wins field lookup, as `encoding/json` assigns object keys in
input order so a later duplicate overwrites an earlier one. -/
def lookupLast : List (String × Json) → String → Option Json
  | [], _ => none
  | (k', v) :: rest, k =>
    match lookupLast rest k with
    | some w => some w
    | none => if k' = k then some v else none

/-- Numeric value of a decimal digit character. -/
def digitVal (c : Char) : Nat := c.toNat - 48

/-- Read two decimal digits. -/
def takeDigits2 : List Char → Option (Nat × List Char)
  | a :: b :: rest =>
    if a.isDigit && b.isDigit then some (digitVal a * 10 + digitVal b, rest)
    else none
  | _ => none

/-- RFC3339 offset part: `Z` or `±hh:mm`. -/
def isRFC3339Offset : List Char → Bool
  | ['Z'] => true
  | c :: rest =>
    (c = '+' || c = '-') &&
      (match takeDigits2 rest with
       | some (hh, ':' :: r2) =>
         hh ≤ 23 &&
           (match takeDigits2 r2 with
            | some (mm, []) => mm ≤ 59
            | _ => false)
       | _ => false)
  | _ => false

/-- RFC3339 tail after the seconds: optional fraction, then offset. -/
def isRFC3339Tail (l : List Char) : Bool :=
  match l with
  | '.' :: rest =>
    rest.takeWhile Char.isDigit ≠ [] &&
      isRFC3339Offset (rest.dropWhile Char.isDigit)
  | _ => isRFC3339Offset l

/-- RFC3339 date-time syntax as `time.Parse(time.RFC3339, ·)` accepts it:
`yyyy-mm-ddThh:mm:ss[.fff](Z|±hh:mm)` with in-range components. -/
def isRFC3339 (s : String) : Bool :=
  match s.toList with
  | y1 :: y2 :: y3 :: y4 :: '-' :: rest =>
    (y1.isDigit && y2.isDigit && y3.isDigit && y4.isDigit) &&
      (match takeDigits2 rest with
       | some (mo, '-' :: r2) =>
         1 ≤ mo && mo ≤ 12 &&
           (match takeDigits2 r2 with
            | some (dd, 'T' :: r3) =>
              1 ≤ dd && dd ≤ 31 &&
                (match takeDigits2 r3 with
                 | some (hh, ':' :: r4) =>
                   hh ≤ 23 &&
                     (match takeDigits2 r4 with
                      | some (mi, ':' :: r5) =>
                        mi ≤ 59 &&
                          (match takeDigits2 r5 with
                           | some (ss, r6) => ss ≤ 59 && isRFC3339Tail r6
                           | _ => false)
                      | _ => false)
                 | _ => false)
            | _ => false)
       | _ => false)
  | _ => false

/-- Decimal value of a digit list. -/
def natOfDigits (l : List Char) : Nat :=
  l.foldl (fun acc c => acc * 10 + digitVal c) 0

/-- One dotted-quad component: 1-3 digits, no leading zero, ≤ 255. -/
def ipv4Part (l : List Char) : Bool :=
  l ≠ [] && l.length ≤ 3 && l.all Char.isDigit &&
    (l.length = 1 || l.headD '0' ≠ '0') && natOfDigits l ≤ 255

/-- Split a character list on `'.'`. -/
def splitDots : List Char → List (List Char)
  | [] => [[]]
  | '.' :: rest => [] :: splitDots rest
  | c :: rest =>
    match splitDots rest with
    | g :: gs => (c :: g) :: gs
    | [] => [[c]]

/-- IPv4 dotted-quad syntax as `net.ParseIP` accepts it for the textual
addresses in scope here. -/
def isIPv4 (s : String) : Bool :=
  match splitDots s.toList with
  | [a, b, c, d] => ipv4Part a && ipv4Part b && ipv4Part c && ipv4Part d
  | _ => false

/-- Unmarshal a JSON value into a `string` field: missing and `null`
leave the zero value; anything but a string is a type error. -/
def decodeString : Option Json → String → Except GoError String
  | none, _ => .ok ""
  | some .null, _ => .ok ""
  | some (.str s), _ => .ok s
  | some _, f => .error (.decodeType f)

/-- Unmarshal a JSON value into an `int` field. -/
def decodeInt : Option Json → String → Except GoError Int
  | none, _ => .ok 0
  | some .null, _ => .ok 0
  | some (.num n), _ => .ok n
  | some _, f => .error (.decodeType f)

/-- Unmarshal a JSON value into a `time.Duration` field: `time.Duration`
is an `int64` with no `UnmarshalJSON`/`UnmarshalText`, so only JSON
numbers are accepted; a string is an `UnmarshalTypeError`. -/
def decodeDuration (j : Option Json) (f : String) : Except GoError GoDuration :=
  decodeInt j f

/-- Unmarshal a JSON value into a `time.Time` field via its
`UnmarshalJSON`: a quoted RFC3339 text, validated. -/
def decodeTime : Option Json → String → Except GoError GoTime
  | none, _ => .ok ""
  | some .null, _ => .ok ""
  | some (.str s), f => if isRFC3339 s then .ok s else .error (.decodeSyntax f)
  | some _, f => .error (.decodeType f)

/-- Unmarshal a JSON value into a `net.IP` field via `UnmarshalText`:
empty text yields the nil IP, otherwise the text must parse. -/
def decodeIP : Option Json → String → Except GoError GoIP
  | none, _ => .ok ""
  | some .null, _ => .ok ""
  | some (.str s), f =>
    if s = "" then .ok "" else if isIPv4 s then .ok s else .error (.decodeSyntax f)
  | some _, f => .error (.decodeType f)

/-- Unmarshal one JSON value into the audit `Response` struct of
`AuditStream.Next` (log.go:164-175). -/
def decodeAuditResponse (j : Json) : Except GoError AuditResponse :=
  match j with
  | .null => .ok ⟨"", "", "", "", 0, 0⟩
  | .obj fields => do
    let ts ← decodeTime (lookupLast fields "time") "time"
    let req ←
      match lookupLast fields "request" with
      | none => Except.ok ("", "", "")
      | some .null => Except.ok ("", "", "")
      | some (.obj rf) => do
        let ip ← decodeIP (lookupLast rf "ip") "request.ip"
        let path ← decodeString (lookupLast rf "path") "request.path"
        let idn ← decodeString (lookupLast rf "identity") "request.identity"
        Except.ok (ip, path, idn)
      | some _ => Except.error (.decodeType "request")
    let resp ←
      match lookupLast fields "response" with
      | none => Except.ok ((0 : Int), (0 : GoDuration))
      | some .null => Except.ok ((0 : Int), (0 : GoDuration))
      | some (.obj pf) => do
        let code ← decodeInt (lookupLast pf "code") "response.code"
        let dur ← decodeDuration (lookupLast pf "time") "response.time"
        Except.ok (code, dur)
      | some _ => Except.error (.decodeType "response")
    .ok ⟨ts, req.1, req.2.1, req.2.2, resp.1, resp.2⟩
  | _ => .error (.decodeType "Response")

/-- Classify one wire audit record for the decoder model. -/
def decItemOfJson (j : Json) : DecItem AuditResponse :=
  match decodeAuditResponse j with
  | .ok r => .ok r
  | .error e => .bad e

/-! ### Unfolding lemmas for the recursive operations -/

theorem ErrorStream.collect_true {s s' : ErrorStream} (h : s.Next = (true, s')) :
    s.collect = (s'.event :: (s'.collect).1, (s'.collect).2) := by
  conv_lhs => rw [ErrorStream.collect.eq_def]
  split
  · rename_i s2 heq
    rw [h] at heq
    have hs : s2 = s' := by simpa using heq.symm
    rw [hs]
  · rename_i s2 heq
    rw [h] at heq
    simp at heq

theorem ErrorStream.collect_false {s s' : ErrorStream} (h : s.Next = (false, s')) :
    s.collect = ([], s') := by
  conv_lhs => rw [ErrorStream.collect.eq_def]
  split
  · rename_i s2 heq
    rw [h] at heq
    simp at heq
  · rename_i s2 heq
    rw [h] at heq
    have hs : s2 = s' := by simpa using heq.symm
    rw [hs]

theorem ErrorStream.iterate_true {s s' : ErrorStream} (h : s.Next = (true, s')) :
    s.iterate = s'.iterate := by
  conv_lhs => rw [ErrorStream.iterate.eq_def]
  split
  · rename_i s2 heq
    rw [h] at heq
    have hs : s2 = s' := by simpa using heq.symm
    rw [hs]
  · rename_i s2 heq
    rw [h] at heq
    simp at heq

theorem ErrorStream.iterate_false {s s' : ErrorStream} (h : s.Next = (false, s')) :
    s.iterate = s' := by
  conv_lhs => rw [ErrorStream.iterate.eq_def]
  split
  · rename_i s2 heq
    rw [h] at heq
    simp at heq
  · rename_i s2 heq
    rw [h] at heq
    have hs : s2 = s' := by simpa using heq.symm
    rw [hs]

theorem ErrorStream.writeToLoop_ok {s : ErrorStream} {cw cw' : CountWriter}
    {r : ErrResponse} {d : Decoder ErrResponse}
    (hd : s.decoder.decode = (.okRes r, d))
    (hw : cw.write (encodeErrResponse r) = (none, cw')) :
    s.writeToLoop cw = ErrorStream.writeToLoop {s with decoder := d} cw' := by
  conv_lhs => rw [ErrorStream.writeToLoop.eq_def]
  split
  · rename_i r2 d2 heq
    rw [hd] at heq
    have hr : r2 = r ∧ d2 = d := by simpa using heq.symm
    rw [hr.1, hr.2, hw]
  · rename_i d2 heq
    rw [hd] at heq
    simp at heq
  · rename_i e2 d2 heq
    rw [hd] at heq
    simp at heq

theorem ErrorStream.writeToLoop_ok_werr {s : ErrorStream} {cw cw' : CountWriter}
    {r : ErrResponse} {d : Decoder ErrResponse} {e : GoError}
    (hd : s.decoder.decode = (.okRes r, d))
    (hw : cw.write (encodeErrResponse r) = (some e, cw')) :
    s.writeToLoop cw = ((cw'.n, some e), {s with decoder := d, err := some e}) := by
  conv_lhs => rw [ErrorStream.writeToLoop.eq_def]
  split
  · rename_i r2 d2 heq
    rw [hd] at heq
    have hr : r2 = r ∧ d2 = d := by simpa using heq.symm
    rw [hr.1, hr.2, hw]
  · rename_i d2 heq
    rw [hd] at heq
    simp at heq
  · rename_i e2 d2 heq
    rw [hd] at heq
    simp at heq

theorem ErrorStream.writeToLoop_eof {s : ErrorStream} {cw : CountWriter}
    {d : Decoder ErrResponse} (hd : s.decoder.decode = (.eofRes, d)) :
    s.writeToLoop cw =
      ((cw.n, (ErrorStream.Close {s with decoder := d}).1),
       {(ErrorStream.Close {s with decoder := d}).2 with
          err := (ErrorStream.Close {s with decoder := d}).1}) := by
  conv_lhs => rw [ErrorStream.writeToLoop.eq_def]
  split
  · rename_i r2 d2 heq
    rw [hd] at heq
    simp at heq
  · rename_i d2 heq
    rw [hd] at heq
    have hD : d2 = d := by simpa using heq.symm
    rw [hD]
  · rename_i e2 d2 heq
    rw [hd] at heq
    simp at heq

theorem ErrorStream.writeToLoop_fail {s : ErrorStream} {cw : CountWriter}
    {d : Decoder ErrResponse} {e : GoError}
    (hd : s.decoder.decode = (.failRes e, d)) :
    s.writeToLoop cw = ((cw.n, some e), {s with decoder := d, err := some e}) := by
  conv_lhs => rw [ErrorStream.writeToLoop.eq_def]
  split
  · rename_i r2 d2 heq
    rw [hd] at heq
    simp at heq
  · rename_i d2 heq
    rw [hd] at heq
    simp at heq
  · rename_i e2 d2 heq
    rw [hd] at heq
    have hr : e2 = e ∧ d2 = d := by simpa using heq.symm
    rw [hr.1, hr.2]

theorem AuditStream.collect_true_a {s s' : AuditStream} (h : s.Next = (true, s')) :
    s.collect = (s'.event :: (s'.collect).1, (s'.collect).2) := by
  conv_lhs => rw [AuditStream.collect.eq_def]
  split
  · rename_i s2 heq
    rw [h] at heq
    have hs : s2 = s' := by simpa using heq.symm
    rw [hs]
  · rename_i s2 heq
    rw [h] at heq
    simp at heq

theorem AuditStream.collect_false_a {s s' : AuditStream} (h : s.Next = (false, s')) :
    s.collect = ([], s') := by
  conv_lhs => rw [AuditStream.collect.eq_def]
  split
  · rename_i s2 heq
    rw [h] at heq
    simp at heq
  · rename_i s2 heq
    rw [h] at heq
    have hs : s2 = s' := by simpa using heq.symm
    rw [hs]

theorem AuditStream.iterate_true_a {s s' : AuditStream} (h : s.Next = (true, s')) :
    s.iterate = s'.iterate := by
  conv_lhs => rw [AuditStream.iterate.eq_def]
  split
  · rename_i s2 heq
    rw [h] at heq
    have hs : s2 = s' := by simpa using heq.symm
    rw [hs]
  · rename_i s2 heq
    rw [h] at heq
    simp at heq

theorem AuditStream.iterate_false_a {s s' : AuditStream} (h : s.Next = (false, s')) :
    s.iterate = s' := by
  conv_lhs => rw [AuditStream.iterate.eq_def]
  split
  · rename_i s2 heq
    rw [h] at heq
    simp at heq
  · rename_i s2 heq
    rw [h] at heq
    have hs : s2 = s' := by simpa using heq.symm
    rw [hs]

theorem AuditStream.writeToLoop_ok_a {s : AuditStream} {cw cw' : CountWriter}
    {r : AuditResponse} {d : Decoder AuditResponse}
    (hd : s.decoder.decode = (.okRes r, d))
    (hw : cw.write (encodeAuditResponse r) = (none, cw')) :
    s.writeToLoop cw = AuditStream.writeToLoop {s with decoder := d} cw' := by
  conv_lhs => rw [AuditStream.writeToLoop.eq_def]
  split
  · rename_i r2 d2 heq
    rw [hd] at heq
    have hr : r2 = r ∧ d2 = d := by simpa using heq.symm
    rw [hr.1, hr.2, hw]
  · rename_i d2 heq
    rw [hd] at heq
    simp at heq
  · rename_i e2 d2 heq
    rw [hd] at heq
    simp at heq

theorem AuditStream.writeToLoop_ok_awerr_a {s : AuditStream} {cw cw' : CountWriter}
    {r : AuditResponse} {d : Decoder AuditResponse} {e : GoError}
    (hd : s.decoder.decode = (.okRes r, d))
    (hw : cw.write (encodeAuditResponse r) = (some e, cw')) :
    s.writeToLoop cw = ((cw'.n, some e), {s with decoder := d, err := some e}) := by
  conv_lhs => rw [AuditStream.writeToLoop.eq_def]
  split
  · rename_i r2 d2 heq
    rw [hd] at heq
    have hr : r2 = r ∧ d2 = d := by simpa using heq.symm
    rw [hr.1, hr.2, hw]
  · rename_i d2 heq
    rw [hd] at heq
    simp at heq
  · rename_i e2 d2 heq
    rw [hd] at heq
    simp at heq

theorem AuditStream.writeToLoop_eof_a {s : AuditStream} {cw : CountWriter}
    {d : Decoder AuditResponse} (hd : s.decoder.decode = (.eofRes, d)) :
    s.writeToLoop cw =
      ((cw.n, (AuditStream.Close {s with decoder := d}).1),
       {(AuditStream.Close {s with decoder := d}).2 with
          err := (AuditStream.Close {s with decoder := d}).1}) := by
  conv_lhs => rw [AuditStream.writeToLoop.eq_def]
  split
  · rename_i r2 d2 heq
    rw [hd] at heq
    simp at heq
  · rename_i d2 heq
    rw [hd] at heq
    have hD : d2 = d := by simpa using heq.symm
    rw [hD]
  · rename_i e2 d2 heq
    rw [hd] at heq
    simp at heq

theorem AuditStream.writeToLoop_fail_a {s : AuditStream} {cw : CountWriter}
    {d : Decoder AuditResponse} {e : GoError}
    (hd : s.decoder.decode = (.failRes e, d)) :
    s.writeToLoop cw = ((cw.n, some e), {s with decoder := d, err := some e}) := by
  conv_lhs => rw [AuditStream.writeToLoop.eq_def]
  split
  · rename_i r2 d2 heq
    rw [hd] at heq
    simp at heq
  · rename_i d2 heq
    rw [hd] at heq
    simp at heq
  · rename_i e2 d2 heq
    rw [hd] at heq
    have hr : e2 = e ∧ d2 = d := by simpa using heq.symm
    rw [hr.1, hr.2]

/-! ### Characterizations of `Close` and `Next` -/

theorem ErrorStream.close_closed {s : ErrorStream} (h : s.closed = true) :
    s.Close = (s.err, s) := by
  simp [ErrorStream.Close, h]

theorem ErrorStream.close_open_noCloser {s : ErrorStream} (h : s.closed = false)
    (hc : s.closer = none) : s.Close = (s.err, {s with closed := true}) := by
  simp [ErrorStream.Close, h, hc]

theorem ErrorStream.close_open_closer_noErr {s : ErrorStream} {res : Option GoError}
    (h : s.closed = false) (hc : s.closer = some res) (he : s.err = none) :
    s.Close =
      (res, {s with closed := true, err := res, closerCalls := s.closerCalls + 1}) := by
  simp [ErrorStream.Close, h, hc, he]

theorem ErrorStream.close_open_closer_err {s : ErrorStream} {res : Option GoError}
    (h : s.closed = false) (hc : s.closer = some res) (he : s.err ≠ none) :
    s.Close = (res, {s with closed := true, closerCalls := s.closerCalls + 1}) := by
  simp [ErrorStream.Close, h, hc, he]

theorem AuditStream.close_closed_a {s : AuditStream} (h : s.closed = true) :
    s.Close = (s.err, s) := by
  simp [AuditStream.Close, h]

theorem AuditStream.close_open_noCloser_a {s : AuditStream} (h : s.closed = false)
    (hc : s.closer = none) : s.Close = (s.err, {s with closed := true}) := by
  simp [AuditStream.Close, h, hc]

theorem AuditStream.close_open_closer_noErr_a {s : AuditStream} {res : Option GoError}
    (h : s.closed = false) (hc : s.closer = some res) (he : s.err = none) :
    s.Close =
      (res, {s with closed := true, err := res, closerCalls := s.closerCalls + 1}) := by
  simp [AuditStream.Close, h, hc, he]

theorem AuditStream.close_open_closer_err_a {s : AuditStream} {res : Option GoError}
    (h : s.closed = false) (hc : s.closer = some res) (he : s.err ≠ none) :
    s.Close = (res, {s with closed := true, closerCalls := s.closerCalls + 1}) := by
  simp [AuditStream.Close, h, hc, he]

/-! ### Iteration over well-formed and truncated inputs -/

theorem ErrorStream.collect_ok_aux :
    ∀ (rs : List ErrResponse) (s : ErrorStream), s.err = none → s.closed = false →
      s.decoder = ⟨rs.map .ok, none⟩ → (s.closer = none ∨ s.closer = some none) →
      s.collect.1 = rs.map (fun r => ⟨r.message⟩) ∧
        s.collect.2.err = none ∧ s.collect.2.closed = true := by
  intro rs
  induction rs with
  | nil =>
    intro s herr hcl hdec hclo
    rcases hclo with h | h
    · have hnext : s.Next = (false, {s with closed := true, err := none}) := by
        simp [ErrorStream.Next, ErrorStream.Close, hdec, herr, hcl, h, Decoder.decode]
      rw [ErrorStream.collect_false hnext]
      simp
    · have hnext : s.Next = (false, {s with closed := true, err := none, closerCalls := s.closerCalls + 1}) := by
        simp [ErrorStream.Next, ErrorStream.Close, hdec, herr, hcl, h, Decoder.decode]
      rw [ErrorStream.collect_false hnext]
      simp
  | cons r rs ih =>
    intro s herr hcl hdec hclo
    have hnext : s.Next =
        (true, {s with decoder := ⟨rs.map .ok, none⟩, event := ⟨r.message⟩}) := by
      simp [ErrorStream.Next, hdec, herr, hcl, Decoder.decode]
    rw [ErrorStream.collect_true hnext]
    have hrec := ih {s with decoder := ⟨rs.map .ok, none⟩, event := ⟨r.message⟩}
      (by simpa using herr) (by simpa using hcl) (by simp) (by simpa using hclo)
    obtain ⟨h1, h2, h3⟩ := hrec
    exact ⟨by simp [h1], h2, h3⟩

theorem ErrorStream.collect_bad_aux :
    ∀ (rs : List ErrResponse) (s : ErrorStream) (e : GoError)
      (rest : List (DecItem ErrResponse)), s.err = none → s.closed = false →
      s.decoder = ⟨rs.map .ok ++ .bad e :: rest, none⟩ →
      s.collect.1 = rs.map (fun r => ⟨r.message⟩) ∧
        s.collect.2.err = some e ∧
        s.collect.2.event = (rs.map (fun r => (⟨r.message⟩ : ErrorEvent))).getLastD s.event := by
  intro rs
  induction rs with
  | nil =>
    intro s e rest herr hcl hdec
    have hnext : s.Next =
        (false, {s with decoder := ⟨.bad e :: rest, some e⟩, err := some e}) := by
      simp [ErrorStream.Next, hdec, herr, hcl, Decoder.decode]
    rw [ErrorStream.collect_false hnext]
    simp
  | cons r rs ih =>
    intro s e rest herr hcl hdec
    have hnext : s.Next =
        (true, {s with decoder := ⟨rs.map .ok ++ .bad e :: rest, none⟩,
                       event := ⟨r.message⟩}) := by
      simp [ErrorStream.Next, hdec, herr, hcl, Decoder.decode]
    rw [ErrorStream.collect_true hnext]
    have hrec := ih {s with decoder := ⟨rs.map .ok ++ .bad e :: rest, none⟩,
                            event := ⟨r.message⟩} e rest
      (by simpa using herr) (by simpa using hcl) (by simp)
    obtain ⟨h1, h2, h3⟩ := hrec
    refine ⟨by simp [h1], h2, ?_⟩
    rw [h3, List.map_cons, List.getLastD_cons]

theorem AuditStream.collect_ok_aux_a :
    ∀ (rs : List AuditResponse) (s : AuditStream), s.err = none → s.closed = false →
      s.decoder = ⟨rs.map .ok, none⟩ → (s.closer = none ∨ s.closer = some none) →
      s.collect.1 = rs.map (fun r => ⟨r.timestamp, r.reqPath, r.reqIP,
                                      r.reqIdentity, r.respCode, r.respTime⟩) ∧
        s.collect.2.err = none ∧ s.collect.2.closed = true := by
  intro rs
  induction rs with
  | nil =>
    intro s herr hcl hdec hclo
    rcases hclo with h | h
    · have hnext : s.Next = (false, {s with closed := true, err := none}) := by
        simp [AuditStream.Next, AuditStream.Close, hdec, herr, hcl, h, Decoder.decode]
      rw [AuditStream.collect_false_a hnext]
      simp
    · have hnext : s.Next = (false, {s with closed := true, err := none, closerCalls := s.closerCalls + 1}) := by
        simp [AuditStream.Next, AuditStream.Close, hdec, herr, hcl, h, Decoder.decode]
      rw [AuditStream.collect_false_a hnext]
      simp
  | cons r rs ih =>
    intro s herr hcl hdec hclo
    have hnext : s.Next =
        (true, {s with decoder := ⟨rs.map .ok, none⟩,
                       event := ⟨r.timestamp, r.reqPath, r.reqIP,
                                 r.reqIdentity, r.respCode, r.respTime⟩}) := by
      simp [AuditStream.Next, hdec, herr, hcl, Decoder.decode]
    rw [AuditStream.collect_true_a hnext]
    have hrec := ih {s with decoder := ⟨rs.map .ok, none⟩,
                            event := ⟨r.timestamp, r.reqPath, r.reqIP,
                                      r.reqIdentity, r.respCode, r.respTime⟩}
      (by simpa using herr) (by simpa using hcl) (by simp) (by simpa using hclo)
    obtain ⟨h1, h2, h3⟩ := hrec
    exact ⟨by simp [h1], h2, h3⟩

theorem AuditStream.collect_bad_aux_a :
    ∀ (rs : List AuditResponse) (s : AuditStream) (e : GoError)
      (rest : List (DecItem AuditResponse)), s.err = none → s.closed = false →
      s.decoder = ⟨rs.map .ok ++ .bad e :: rest, none⟩ →
      s.collect.1 = rs.map (fun r => ⟨r.timestamp, r.reqPath, r.reqIP,
                                      r.reqIdentity, r.respCode, r.respTime⟩) ∧
        s.collect.2.err = some e ∧
        s.collect.2.event = (rs.map (fun r => (⟨r.timestamp, r.reqPath, r.reqIP,
            r.reqIdentity, r.respCode, r.respTime⟩ : AuditEvent))).getLastD s.event := by
  intro rs
  induction rs with
  | nil =>
    intro s e rest herr hcl hdec
    have hnext : s.Next =
        (false, {s with decoder := ⟨.bad e :: rest, some e⟩, err := some e}) := by
      simp [AuditStream.Next, hdec, herr, hcl, Decoder.decode]
    rw [AuditStream.collect_false_a hnext]
    simp
  | cons r rs ih =>
    intro s e rest herr hcl hdec
    have hnext : s.Next =
        (true, {s with decoder := ⟨rs.map .ok ++ .bad e :: rest, none⟩,
                       event := ⟨r.timestamp, r.reqPath, r.reqIP,
                                 r.reqIdentity, r.respCode, r.respTime⟩}) := by
      simp [AuditStream.Next, hdec, herr, hcl, Decoder.decode]
    rw [AuditStream.collect_true_a hnext]
    have hrec := ih {s with decoder := ⟨rs.map .ok ++ .bad e :: rest, none⟩,
                            event := ⟨r.timestamp, r.reqPath, r.reqIP,
                                      r.reqIdentity, r.respCode, r.respTime⟩} e rest
      (by simpa using herr) (by simpa using hcl) (by simp)
    obtain ⟨h1, h2, h3⟩ := hrec
    refine ⟨by simp [h1], h2, ?_⟩
    rw [h3, List.map_cons, List.getLastD_cons]

/-! ### The stored event does not influence the core state machine -/

theorem ErrorStream.close_event (s : ErrorStream) : (s.Close).2.event = s.event := by
  by_cases hcl : s.closed = true
  · rw [ErrorStream.close_closed hcl]
  · replace hcl : s.closed = false := by simpa using hcl
    cases hc : s.closer with
    | none => rw [ErrorStream.close_open_noCloser hcl hc]
    | some res =>
      by_cases he : s.err = none
      · rw [ErrorStream.close_open_closer_noErr hcl hc he]
      · rw [ErrorStream.close_open_closer_err hcl hc he]

theorem AuditStream.close_event_a (s : AuditStream) : (s.Close).2.event = s.event := by
  by_cases hcl : s.closed = true
  · rw [AuditStream.close_closed_a hcl]
  · replace hcl : s.closed = false := by simpa using hcl
    cases hc : s.closer with
    | none => rw [AuditStream.close_open_noCloser_a hcl hc]
    | some res =>
      by_cases he : s.err = none
      · rw [AuditStream.close_open_closer_noErr_a hcl hc he]
      · rw [AuditStream.close_open_closer_err_a hcl hc he]

/-- Agreement of two `ErrorStream` states on everything except the
stored event. -/
def ESCoreEq (s t : ErrorStream) : Prop :=
  s.decoder = t.decoder ∧ s.closer = t.closer ∧ s.err = t.err ∧
    s.closed = t.closed ∧ s.closerCalls = t.closerCalls

theorem ESCoreEq.esRefl {s : ErrorStream} : ESCoreEq s s :=
  ⟨Eq.refl _, Eq.refl _, Eq.refl _, Eq.refl _, Eq.refl _⟩

theorem ESCoreEq.esSymm {s t : ErrorStream} (h : ESCoreEq s t) : ESCoreEq t s := by
  obtain ⟨h1, h2, h3, h4, h5⟩ := h
  exact ⟨h1.symm, h2.symm, h3.symm, h4.symm, h5.symm⟩

theorem ESCoreEq.esTrans {s t u : ErrorStream} (h : ESCoreEq s t)
    (h' : ESCoreEq t u) : ESCoreEq s u := by
  obtain ⟨h1, h2, h3, h4, h5⟩ := h
  obtain ⟨g1, g2, g3, g4, g5⟩ := h'
  exact ⟨h1.trans g1, h2.trans g2, h3.trans g3, h4.trans g4, h5.trans g5⟩

theorem ErrorStream.close_event_override (s : ErrorStream) (ev : ErrorEvent) :
    ({s with event := ev} : ErrorStream).Close =
      ((s.Close).1, {(s.Close).2 with event := ev}) := by
  by_cases hcl : s.closed = true
  · simp [ErrorStream.Close, hcl]
  · replace hcl : s.closed = false := by simpa using hcl
    cases hc : s.closer with
    | none => simp [ErrorStream.Close, hcl, hc]
    | some res =>
      by_cases he : s.err = none <;> simp [ErrorStream.Close, hcl, hc, he]

theorem ErrorStream.next_true_event_override {s s' : ErrorStream} (ev : ErrorEvent)
    (h : s.Next = (true, s')) :
    ({s with event := ev} : ErrorStream).Next = (true, s') := by
  unfold ErrorStream.Next at h ⊢
  by_cases hg : (s.err.isSome || s.closed) = true
  · simp [hg] at h
  · rcases hd : s.decoder.decode with ⟨o, d⟩
    rw [hd] at h
    cases o with
    | okRes r =>
      simp [hg, hd] at h ⊢
      exact h
    | eofRes => simp [hg] at h
    | failRes e => simp [hg] at h

theorem ErrorStream.next_false_event_override {s s' : ErrorStream} (ev : ErrorEvent)
    (h : s.Next = (false, s')) :
    ({s with event := ev} : ErrorStream).Next = (false, {s' with event := ev}) := by
  unfold ErrorStream.Next at h ⊢
  by_cases hg : (s.err.isSome || s.closed) = true
  · simp [hg] at h ⊢
    rw [← h]
    exact ⟨rfl, rfl, rfl, rfl, rfl⟩
  · rcases hd : s.decoder.decode with ⟨o, d⟩
    rw [hd] at h
    cases o with
    | okRes r => simp [hg, hd] at h
    | eofRes =>
      have hco := ErrorStream.close_event_override {s with decoder := d} ev
      simp [hg, hd] at h ⊢
      rw [show ({s with decoder := d, event := ev} : ErrorStream) =
            {({s with decoder := d} : ErrorStream) with event := ev} from rfl, hco]
      simp
      rw [← h]
      simp
    | failRes e =>
      simp [hg, hd] at h ⊢
      rw [← h]
      simp

theorem ErrorStream.iterate_event_core (s : ErrorStream) (ev : ErrorEvent) :
    ESCoreEq (({s with event := ev} : ErrorStream).iterate) s.iterate := by
  rcases hnx : s.Next with ⟨b, s'⟩
  cases b with
  | true =>
    rw [ErrorStream.iterate_true hnx,
      ErrorStream.iterate_true (ErrorStream.next_true_event_override ev hnx)]
    exact ESCoreEq.esRefl
  | false =>
    rw [ErrorStream.iterate_false hnx,
      ErrorStream.iterate_false (ErrorStream.next_false_event_override ev hnx)]
    exact ⟨rfl, rfl, rfl, rfl, rfl⟩

/-- Agreement of two `AuditStream` states on everything except the
stored event. -/
def ASCoreEq (s t : AuditStream) : Prop :=
  s.decoder = t.decoder ∧ s.closer = t.closer ∧ s.err = t.err ∧
    s.closed = t.closed ∧ s.closerCalls = t.closerCalls

theorem ASCoreEq.asRefl {s : AuditStream} : ASCoreEq s s :=
  ⟨Eq.refl _, Eq.refl _, Eq.refl _, Eq.refl _, Eq.refl _⟩

theorem ASCoreEq.asSymm {s t : AuditStream} (h : ASCoreEq s t) : ASCoreEq t s := by
  obtain ⟨h1, h2, h3, h4, h5⟩ := h
  exact ⟨h1.symm, h2.symm, h3.symm, h4.symm, h5.symm⟩

theorem ASCoreEq.asTrans {s t u : AuditStream} (h : ASCoreEq s t)
    (h' : ASCoreEq t u) : ASCoreEq s u := by
  obtain ⟨h1, h2, h3, h4, h5⟩ := h
  obtain ⟨g1, g2, g3, g4, g5⟩ := h'
  exact ⟨h1.trans g1, h2.trans g2, h3.trans g3, h4.trans g4, h5.trans g5⟩

theorem AuditStream.close_event_a_override_a (s : AuditStream) (ev : AuditEvent) :
    ({s with event := ev} : AuditStream).Close =
      ((s.Close).1, {(s.Close).2 with event := ev}) := by
  by_cases hcl : s.closed = true
  · simp [AuditStream.Close, hcl]
  · replace hcl : s.closed = false := by simpa using hcl
    cases hc : s.closer with
    | none => simp [AuditStream.Close, hcl, hc]
    | some res =>
      by_cases he : s.err = none <;> simp [AuditStream.Close, hcl, hc, he]

theorem AuditStream.next_true_event_override_a {s s' : AuditStream} (ev : AuditEvent)
    (h : s.Next = (true, s')) :
    ({s with event := ev} : AuditStream).Next = (true, s') := by
  unfold AuditStream.Next at h ⊢
  by_cases hg : (s.closed || s.err.isSome) = true
  · simp [hg] at h
  · rcases hd : s.decoder.decode with ⟨o, d⟩
    rw [hd] at h
    cases o with
    | okRes r =>
      simp [hg, hd] at h ⊢
      exact h
    | eofRes => simp [hg] at h
    | failRes e => simp [hg] at h

theorem AuditStream.next_false_event_override_a {s s' : AuditStream} (ev : AuditEvent)
    (h : s.Next = (false, s')) :
    ({s with event := ev} : AuditStream).Next = (false, {s' with event := ev}) := by
  unfold AuditStream.Next at h ⊢
  by_cases hg : (s.closed || s.err.isSome) = true
  · simp [hg] at h ⊢
    rw [← h]
    exact ⟨rfl, rfl, rfl, rfl, rfl⟩
  · rcases hd : s.decoder.decode with ⟨o, d⟩
    rw [hd] at h
    cases o with
    | okRes r => simp [hg, hd] at h
    | eofRes =>
      have hco := AuditStream.close_event_a_override_a {s with decoder := d} ev
      simp [hg, hd] at h ⊢
      rw [show ({s with decoder := d, event := ev} : AuditStream) =
            {({s with decoder := d} : AuditStream) with event := ev} from rfl, hco]
      simp
      rw [← h]
      simp
    | failRes e =>
      simp [hg, hd] at h ⊢
      rw [← h]
      simp

theorem AuditStream.iterate_event_core_a (s : AuditStream) (ev : AuditEvent) :
    ASCoreEq (({s with event := ev} : AuditStream).iterate) s.iterate := by
  rcases hnx : s.Next with ⟨b, s'⟩
  cases b with
  | true =>
    rw [AuditStream.iterate_true_a hnx,
      AuditStream.iterate_true_a (AuditStream.next_true_event_override_a ev hnx)]
    exact ASCoreEq.asRefl
  | false =>
    rw [AuditStream.iterate_false_a hnx,
      AuditStream.iterate_false_a (AuditStream.next_false_event_override_a ev hnx)]
    exact ⟨rfl, rfl, rfl, rfl, rfl⟩

theorem ErrorStream.writeTo_iterate_aux :
    ∀ (n : Nat) (s : ErrorStream) (m : Int), s.decoder.input.length ≤ n →
      s.closed = false → s.err = none →
      ESCoreEq ((s.writeToLoop ⟨[], m⟩).2) s.iterate := by
  intro n
  induction n with
  | zero =>
    intro s m hlen hcl herr
    have hinp : s.decoder.input = [] := List.length_eq_zero.mp (Nat.le_zero.mp hlen)
    cases hst : s.decoder.stickyErr with
    | some e =>
      have hd : s.decoder.decode = (.failRes e, s.decoder) := by
        simp [Decoder.decode, hst]
      rw [ErrorStream.writeToLoop_fail hd]
      have hnx : s.Next = (false, {s with decoder := s.decoder, err := some e}) := by
        simp [ErrorStream.Next, herr, hcl, hd]
      rw [ErrorStream.iterate_false hnx]
      exact ⟨rfl, rfl, rfl, rfl, rfl⟩
    | none =>
      have hd : s.decoder.decode = (.eofRes, s.decoder) := by
        simp [Decoder.decode, hst, hinp]
      rw [ErrorStream.writeToLoop_eof hd]
      have hnx : s.Next =
          (false, {(ErrorStream.Close {s with decoder := s.decoder}).2 with
                     err := (ErrorStream.Close {s with decoder := s.decoder}).1}) := by
        simp [ErrorStream.Next, herr, hcl, hd]
      rw [ErrorStream.iterate_false hnx]
      exact ⟨rfl, rfl, rfl, rfl, rfl⟩
  | succ n ih =>
    intro s m hlen hcl herr
    cases hst : s.decoder.stickyErr with
    | some e =>
      have hd : s.decoder.decode = (.failRes e, s.decoder) := by
        simp [Decoder.decode, hst]
      rw [ErrorStream.writeToLoop_fail hd]
      have hnx : s.Next = (false, {s with decoder := s.decoder, err := some e}) := by
        simp [ErrorStream.Next, herr, hcl, hd]
      rw [ErrorStream.iterate_false hnx]
      exact ⟨rfl, rfl, rfl, rfl, rfl⟩
    | none =>
      cases hinp : s.decoder.input with
      | nil =>
        have hd : s.decoder.decode = (.eofRes, s.decoder) := by
          simp [Decoder.decode, hst, hinp]
        rw [ErrorStream.writeToLoop_eof hd]
        have hnx : s.Next =
            (false, {(ErrorStream.Close {s with decoder := s.decoder}).2 with
                       err := (ErrorStream.Close {s with decoder := s.decoder}).1}) := by
          simp [ErrorStream.Next, herr, hcl, hd]
        rw [ErrorStream.iterate_false hnx]
        exact ⟨rfl, rfl, rfl, rfl, rfl⟩
      | cons it rest =>
        cases it with
        | ok r =>
          have hd : s.decoder.decode = (.okRes r, ⟨rest, none⟩) := by
            simp [Decoder.decode, hst, hinp]
          have hw : (CountWriter.mk [] m).write (encodeErrResponse r) =
              (none, ⟨[], m + ((encodeErrResponse r).length : Int)⟩) := by
            simp [CountWriter.write]
          rw [ErrorStream.writeToLoop_ok hd hw]
          have hnx : s.Next =
              (true, {s with decoder := ⟨rest, none⟩, event := ⟨r.message⟩}) := by
            simp [ErrorStream.Next, herr, hcl, hd]
          rw [ErrorStream.iterate_true hnx]
          have hih := ih {s with decoder := ⟨rest, none⟩}
            (m + ((encodeErrResponse r).length : Int))
            (by simp only [hinp] at hlen; simpa using Nat.le_of_succ_le_succ hlen)
            (by simpa using hcl) (by simpa using herr)
          have hev := ErrorStream.iterate_event_core
            {s with decoder := ⟨rest, none⟩} ⟨r.message⟩
          exact ESCoreEq.esTrans hih (ESCoreEq.esSymm hev)
        | bad e =>
          have hd : s.decoder.decode = (.failRes e, ⟨.bad e :: rest, some e⟩) := by
            simp [Decoder.decode, hst, hinp]
          rw [ErrorStream.writeToLoop_fail hd]
          have hnx : s.Next =
              (false, {s with decoder := ⟨.bad e :: rest, some e⟩, err := some e}) := by
            simp [ErrorStream.Next, herr, hcl, hd]
          rw [ErrorStream.iterate_false hnx]
          exact ⟨rfl, rfl, rfl, rfl, rfl⟩

theorem AuditStream.writeTo_iterate_aux_a :
    ∀ (n : Nat) (s : AuditStream) (m : Int), s.decoder.input.length ≤ n →
      s.closed = false → s.err = none →
      ASCoreEq ((s.writeToLoop ⟨[], m⟩).2) s.iterate := by
  intro n
  induction n with
  | zero =>
    intro s m hlen hcl herr
    have hinp : s.decoder.input = [] := List.length_eq_zero.mp (Nat.le_zero.mp hlen)
    cases hst : s.decoder.stickyErr with
    | some e =>
      have hd : s.decoder.decode = (.failRes e, s.decoder) := by
        simp [Decoder.decode, hst]
      rw [AuditStream.writeToLoop_fail_a hd]
      have hnx : s.Next = (false, {s with decoder := s.decoder, err := some e}) := by
        simp [AuditStream.Next, herr, hcl, hd]
      rw [AuditStream.iterate_false_a hnx]
      exact ⟨rfl, rfl, rfl, rfl, rfl⟩
    | none =>
      have hd : s.decoder.decode = (.eofRes, s.decoder) := by
        simp [Decoder.decode, hst, hinp]
      rw [AuditStream.writeToLoop_eof_a hd]
      have hnx : s.Next =
          (false, {(AuditStream.Close {s with decoder := s.decoder}).2 with
                     err := (AuditStream.Close {s with decoder := s.decoder}).1}) := by
        simp [AuditStream.Next, herr, hcl, hd]
      rw [AuditStream.iterate_false_a hnx]
      exact ⟨rfl, rfl, rfl, rfl, rfl⟩
  | succ n ih =>
    intro s m hlen hcl herr
    cases hst : s.decoder.stickyErr with
    | some e =>
      have hd : s.decoder.decode = (.failRes e, s.decoder) := by
        simp [Decoder.decode, hst]
      rw [AuditStream.writeToLoop_fail_a hd]
      have hnx : s.Next = (false, {s with decoder := s.decoder, err := some e}) := by
        simp [AuditStream.Next, herr, hcl, hd]
      rw [AuditStream.iterate_false_a hnx]
      exact ⟨rfl, rfl, rfl, rfl, rfl⟩
    | none =>
      cases hinp : s.decoder.input with
      | nil =>
        have hd : s.decoder.decode = (.eofRes, s.decoder) := by
          simp [Decoder.decode, hst, hinp]
        rw [AuditStream.writeToLoop_eof_a hd]
        have hnx : s.Next =
            (false, {(AuditStream.Close {s with decoder := s.decoder}).2 with
                       err := (AuditStream.Close {s with decoder := s.decoder}).1}) := by
          simp [AuditStream.Next, herr, hcl, hd]
        rw [AuditStream.iterate_false_a hnx]
        exact ⟨rfl, rfl, rfl, rfl, rfl⟩
      | cons it rest =>
        cases it with
        | ok r =>
          have hd : s.decoder.decode = (.okRes r, ⟨rest, none⟩) := by
            simp [Decoder.decode, hst, hinp]
          have hw : (CountWriter.mk [] m).write (encodeAuditResponse r) =
              (none, ⟨[], m + ((encodeAuditResponse r).length : Int)⟩) := by
            simp [CountWriter.write]
          rw [AuditStream.writeToLoop_ok_a hd hw]
          have hnx : s.Next =
              (true, {s with decoder := ⟨rest, none⟩,
                             event := ⟨r.timestamp, r.reqPath, r.reqIP,
                                       r.reqIdentity, r.respCode, r.respTime⟩}) := by
            simp [AuditStream.Next, herr, hcl, hd]
          rw [AuditStream.iterate_true_a hnx]
          have hih := ih {s with decoder := ⟨rest, none⟩}
            (m + ((encodeAuditResponse r).length : Int))
            (by simp only [hinp] at hlen; simpa using Nat.le_of_succ_le_succ hlen)
            (by simpa using hcl) (by simpa using herr)
          have hev := AuditStream.iterate_event_core_a
            {s with decoder := ⟨rest, none⟩}
            ⟨r.timestamp, r.reqPath, r.reqIP, r.reqIdentity, r.respCode, r.respTime⟩
          exact ASCoreEq.asTrans hih (ASCoreEq.asSymm hev)
        | bad e =>
          have hd : s.decoder.decode = (.failRes e, ⟨.bad e :: rest, some e⟩) := by
            simp [Decoder.decode, hst, hinp]
          rw [AuditStream.writeToLoop_fail_a hd]
          have hnx : s.Next =
              (false, {s with decoder := ⟨.bad e :: rest, some e⟩, err := some e}) := by
            simp [AuditStream.Next, herr, hcl, hd]
          rw [AuditStream.iterate_false_a hnx]
          exact ⟨rfl, rfl, rfl, rfl, rfl⟩

theorem ErrorStream.writeToLoop_event :
    ∀ (n : Nat) (s : ErrorStream) (cw : CountWriter), s.decoder.input.length ≤ n →
      ((s.writeToLoop cw).2).event = s.event := by
  intro n
  induction n with
  | zero =>
    intro s cw hlen
    have hinp : s.decoder.input = [] := List.length_eq_zero.mp (Nat.le_zero.mp hlen)
    cases hst : s.decoder.stickyErr with
    | some e =>
      have hd : s.decoder.decode = (.failRes e, s.decoder) := by
        simp [Decoder.decode, hst]
      rw [ErrorStream.writeToLoop_fail hd]
    | none =>
      have hd : s.decoder.decode = (.eofRes, s.decoder) := by
        simp [Decoder.decode, hst, hinp]
      rw [ErrorStream.writeToLoop_eof hd]
      simpa using ErrorStream.close_event {s with decoder := s.decoder}
  | succ n ih =>
    intro s cw hlen
    cases hst : s.decoder.stickyErr with
    | some e =>
      have hd : s.decoder.decode = (.failRes e, s.decoder) := by
        simp [Decoder.decode, hst]
      rw [ErrorStream.writeToLoop_fail hd]
    | none =>
      cases hinp : s.decoder.input with
      | nil =>
        have hd : s.decoder.decode = (.eofRes, s.decoder) := by
          simp [Decoder.decode, hst, hinp]
        rw [ErrorStream.writeToLoop_eof hd]
        simpa using ErrorStream.close_event {s with decoder := s.decoder}
      | cons it rest =>
        cases it with
        | ok r =>
          have hd : s.decoder.decode = (.okRes r, ⟨rest, none⟩) := by
            simp [Decoder.decode, hst, hinp]
          rcases hwr : cw.write (encodeErrResponse r) with ⟨werr, cw'⟩
          cases werr with
          | none =>
            rw [ErrorStream.writeToLoop_ok hd hwr]
            have := ih {s with decoder := ⟨rest, none⟩} cw'
              (by simp only [hinp] at hlen; simpa using Nat.le_of_succ_le_succ hlen)
            simpa using this
          | some e => rw [ErrorStream.writeToLoop_ok_werr hd hwr]
        | bad e =>
          have hd : s.decoder.decode = (.failRes e, ⟨.bad e :: rest, some e⟩) := by
            simp [Decoder.decode, hst, hinp]
          rw [ErrorStream.writeToLoop_fail hd]

theorem AuditStream.writeToLoop_event_a :
    ∀ (n : Nat) (s : AuditStream) (cw : CountWriter), s.decoder.input.length ≤ n →
      ((s.writeToLoop cw).2).event = s.event := by
  intro n
  induction n with
  | zero =>
    intro s cw hlen
    have hinp : s.decoder.input = [] := List.length_eq_zero.mp (Nat.le_zero.mp hlen)
    cases hst : s.decoder.stickyErr with
    | some e =>
      have hd : s.decoder.decode = (.failRes e, s.decoder) := by
        simp [Decoder.decode, hst]
      rw [AuditStream.writeToLoop_fail_a hd]
    | none =>
      have hd : s.decoder.decode = (.eofRes, s.decoder) := by
        simp [Decoder.decode, hst, hinp]
      rw [AuditStream.writeToLoop_eof_a hd]
      simpa using AuditStream.close_event_a {s with decoder := s.decoder}
  | succ n ih =>
    intro s cw hlen
    cases hst : s.decoder.stickyErr with
    | some e =>
      have hd : s.decoder.decode = (.failRes e, s.decoder) := by
        simp [Decoder.decode, hst]
      rw [AuditStream.writeToLoop_fail_a hd]
    | none =>
      cases hinp : s.decoder.input with
      | nil =>
        have hd : s.decoder.decode = (.eofRes, s.decoder) := by
          simp [Decoder.decode, hst, hinp]
        rw [AuditStream.writeToLoop_eof_a hd]
        simpa using AuditStream.close_event_a {s with decoder := s.decoder}
      | cons it rest =>
        cases it with
        | ok r =>
          have hd : s.decoder.decode = (.okRes r, ⟨rest, none⟩) := by
            simp [Decoder.decode, hst, hinp]
          rcases hwr : cw.write (encodeAuditResponse r) with ⟨werr, cw'⟩
          cases werr with
          | none =>
            rw [AuditStream.writeToLoop_ok_a hd hwr]
            have := ih {s with decoder := ⟨rest, none⟩} cw'
              (by simp only [hinp] at hlen; simpa using Nat.le_of_succ_le_succ hlen)
            simpa using this
          | some e => rw [AuditStream.writeToLoop_ok_awerr_a hd hwr]
        | bad e =>
          have hd : s.decoder.decode = (.failRes e, ⟨.bad e :: rest, some e⟩) := by
            simp [Decoder.decode, hst, hinp]
          rw [AuditStream.writeToLoop_fail_a hd]

/-- The total encoded size of a list of re-encoded error records. -/
def sumEncodedErr (rs : List ErrResponse) : Int :=
  (rs.map (fun r => ((encodeErrResponse r).length : Int))).sum

theorem ErrorStream.writeToLoop_bytes_ok :
    ∀ (rs : List ErrResponse) (s : ErrorStream) (m : Int), s.closed = false →
      s.err = none → s.decoder = ⟨rs.map .ok, none⟩ →
      (s.closer = none ∨ s.closer = some none) →
      (s.writeToLoop ⟨[], m⟩).1 = (m + sumEncodedErr rs, none) := by
  intro rs
  induction rs with
  | nil =>
    intro s m hcl herr hdec hclo
    have hd : s.decoder.decode = (.eofRes, s.decoder) := by
      simp [Decoder.decode, hdec]
    rw [ErrorStream.writeToLoop_eof hd]
    rcases hclo with h | h
    · rw [ErrorStream.close_open_noCloser (by simpa using hcl) (by simpa using h)]
      simp [sumEncodedErr, herr]
    · rw [ErrorStream.close_open_closer_noErr (by simpa using hcl) (by simpa using h)
        (by simpa using herr)]
      simp [sumEncodedErr]
  | cons r rs ih =>
    intro s m hcl herr hdec hclo
    have hd : s.decoder.decode = (.okRes r, ⟨rs.map .ok, none⟩) := by
      simp [Decoder.decode, hdec]
    have hw : (CountWriter.mk [] m).write (encodeErrResponse r) =
        (none, ⟨[], m + ((encodeErrResponse r).length : Int)⟩) := by
      simp [CountWriter.write]
    rw [ErrorStream.writeToLoop_ok hd hw]
    rw [ih {s with decoder := ⟨rs.map .ok, none⟩} (m + ((encodeErrResponse r).length : Int))
      (by simpa using hcl) (by simpa using herr) (by simp) (by simpa using hclo)]
    simp [sumEncodedErr]
    ring

theorem ErrorStream.writeToLoop_bytes_bad :
    ∀ (rs : List ErrResponse) (s : ErrorStream) (m : Int) (e : GoError)
      (rest : List (DecItem ErrResponse)),
      s.decoder = ⟨rs.map .ok ++ .bad e :: rest, none⟩ →
      (s.writeToLoop ⟨[], m⟩).1 = (m + sumEncodedErr rs, some e) := by
  intro rs
  induction rs with
  | nil =>
    intro s m e rest hdec
    have hd : s.decoder.decode = (.failRes e, ⟨.bad e :: rest, some e⟩) := by
      simp [Decoder.decode, hdec]
    rw [ErrorStream.writeToLoop_fail hd]
    simp [sumEncodedErr]
  | cons r rs ih =>
    intro s m e rest hdec
    have hd : s.decoder.decode = (.okRes r, ⟨rs.map .ok ++ .bad e :: rest, none⟩) := by
      simp [Decoder.decode, hdec]
    have hw : (CountWriter.mk [] m).write (encodeErrResponse r) =
        (none, ⟨[], m + ((encodeErrResponse r).length : Int)⟩) := by
      simp [CountWriter.write]
    rw [ErrorStream.writeToLoop_ok hd hw]
    rw [ih {s with decoder := ⟨rs.map .ok ++ .bad e :: rest, none⟩}
      (m + ((encodeErrResponse r).length : Int)) e rest (by simp)]
    simp [sumEncodedErr]
    ring

/-! ### The claims -/

/-- The C1 property for one `ErrorStream`: iterating a fresh stream over
`N` well-formed records yields exactly the `N` mapped events in input
order, then a false advance, with a nil sticky error afterwards. -/
def C1ErrProp (rs : List ErrResponse) (c : Option (Option GoError)) : Prop :=
  (NewErrorStream (rs.map .ok) c).collect.1 = rs.map (fun r => ⟨r.message⟩) ∧
    (NewErrorStream (rs.map .ok) c).collect.2.err = none ∧
    ((NewErrorStream (rs.map .ok) c).collect.2.Next).1 = false

/-- The C1 property for one `AuditStream`. -/
def C1AudProp (rs : List AuditResponse) (c : Option (Option GoError)) : Prop :=
  (NewAuditStream (rs.map .ok) c).collect.1 =
      rs.map (fun r => ⟨r.timestamp, r.reqPath, r.reqIP, r.reqIdentity,
                        r.respCode, r.respTime⟩) ∧
    (NewAuditStream (rs.map .ok) c).collect.2.err = none ∧
    ((NewAuditStream (rs.map .ok) c).collect.2.Next).1 = false

/-- C1: for every well-formed input of N records, `ErrorStream.Next` /
`AuditStream.Next` return true exactly N times, each success storing the
correctly mapped domain event in input order, then return false with the
sticky error nil afterwards (underlying close succeeding or absent). -/
theorem C1_advance_over_well_formed_input
    (rs : List ErrResponse) (qs : List AuditResponse)
    (c c' : Option (Option GoError))
    (hc : c = none ∨ c = some none) (hc' : c' = none ∨ c' = some none) :
    C1ErrProp rs c ∧ C1AudProp qs c' := by
  constructor
  · obtain ⟨h1, h2, h3⟩ := ErrorStream.collect_ok_aux rs
      (NewErrorStream (rs.map .ok) c) rfl rfl rfl (by simpa using hc)
    exact ⟨h1, h2, by simp [ErrorStream.Next, h3]⟩
  · obtain ⟨h1, h2, h3⟩ := AuditStream.collect_ok_aux_a qs
      (NewAuditStream (qs.map .ok) c') rfl rfl rfl (by simpa using hc')
    exact ⟨h1, h2, by simp [AuditStream.Next, h3]⟩

/-- Witness for C1 at a two-record error input and a one-record audit
input, with no closer on the first stream and a succeeding closer on the
second. -/
theorem C1_advance_over_well_formed_input_witness :
    C1ErrProp [⟨"a"⟩, ⟨"b"⟩] none ∧
      C1AudProp [⟨"2024-01-01T00:00:00Z", "10.0.0.1", "/v1/key/create",
                  "abc123", 200, 15000000⟩] (some none) :=
  C1_advance_over_well_formed_input [⟨"a"⟩, ⟨"b"⟩]
    [⟨"2024-01-01T00:00:00Z", "10.0.0.1", "/v1/key/create", "abc123", 200, 15000000⟩]
    none (some none) (Or.inl rfl) (Or.inr rfl)

/-- The C2 property for one `ErrorStream`: with the k-th record malformed
(`k = rs.length + 1`), iteration yields exactly the first k−1 mapped
events, then a false advance with the decode error stored, while the
stored event still reflects record k−1 (or the zero event when k = 1). -/
def C2ErrProp (rs : List ErrResponse) (e : GoError)
    (rest : List (DecItem ErrResponse)) (c : Option (Option GoError)) : Prop :=
  (NewErrorStream (rs.map .ok ++ .bad e :: rest) c).collect.1 =
      rs.map (fun r => ⟨r.message⟩) ∧
    (NewErrorStream (rs.map .ok ++ .bad e :: rest) c).collect.1.length = rs.length ∧
    (NewErrorStream (rs.map .ok ++ .bad e :: rest) c).collect.2.err = some e ∧
    ((NewErrorStream (rs.map .ok ++ .bad e :: rest) c).collect.2).Event =
      (rs.map (fun r => (⟨r.message⟩ : ErrorEvent))).getLastD ⟨""⟩

/-- The C2 property for one `AuditStream`. -/
def C2AudProp (rs : List AuditResponse) (e : GoError)
    (rest : List (DecItem AuditResponse)) (c : Option (Option GoError)) : Prop :=
  (NewAuditStream (rs.map .ok ++ .bad e :: rest) c).collect.1 =
      rs.map (fun r => ⟨r.timestamp, r.reqPath, r.reqIP, r.reqIdentity,
                        r.respCode, r.respTime⟩) ∧
    (NewAuditStream (rs.map .ok ++ .bad e :: rest) c).collect.1.length = rs.length ∧
    (NewAuditStream (rs.map .ok ++ .bad e :: rest) c).collect.2.err = some e ∧
    ((NewAuditStream (rs.map .ok ++ .bad e :: rest) c).collect.2).Event =
      (rs.map (fun r => (⟨r.timestamp, r.reqPath, r.reqIP, r.reqIdentity,
                          r.respCode, r.respTime⟩ : AuditEvent))).getLastD
        ⟨"", "", "", "", 0, 0⟩

/-- C2: for an input whose record at position k (1-indexed) is malformed,
the advance operation returns true exactly k−1 times, then false with the
non-nil decode error stored, and `Event()` still returns the event mapped
from record k−1 (the failing advance leaves the stored event unchanged). -/
theorem C2_malformed_record (rs : List ErrResponse) (qs : List AuditResponse)
    (e e' : GoError) (he : e.isDecodeErr = true) (he' : e'.isDecodeErr = true)
    (rest : List (DecItem ErrResponse)) (rest' : List (DecItem AuditResponse))
    (c c' : Option (Option GoError)) :
    C2ErrProp rs e rest c ∧ C2AudProp qs e' rest' c' := by
  constructor
  · obtain ⟨h1, h2, h3⟩ := ErrorStream.collect_bad_aux rs
      (NewErrorStream (rs.map .ok ++ .bad e :: rest) c) e rest rfl rfl (by rfl)
    exact ⟨h1, by simp [h1], h2, h3⟩
  · obtain ⟨h1, h2, h3⟩ := AuditStream.collect_bad_aux_a qs
      (NewAuditStream (qs.map .ok ++ .bad e' :: rest') c') e' rest' rfl rfl (by rfl)
    exact ⟨h1, by simp [h1], h2, h3⟩

/-- Witness for C2: one good record then a malformed one (k = 2) on the
error stream, and an immediately malformed input (k = 1) on the audit
stream. -/
theorem C2_malformed_record_witness :
    GoError.isDecodeErr (.decodeSyntax "bad byte") = true ∧
      GoError.isDecodeErr (.decodeType "response.time") = true ∧
      (C2ErrProp [⟨"a"⟩] (.decodeSyntax "bad byte") [] none ∧
        C2AudProp [] (.decodeType "response.time") [.ok ⟨"", "", "", "", 0, 0⟩]
          (some none)) :=
  ⟨by decide, by decide,
    C2_malformed_record [⟨"a"⟩] [] (.decodeSyntax "bad byte")
      (.decodeType "response.time") (by decide) (by decide) []
      [.ok ⟨"", "", "", "", 0, 0⟩] none (some none)⟩

/-- C6: the error query returns the sticky terminal error when one has
occurred and nil otherwise; on fresh streams it is nil.  (`Err()` itself
is modelled from the spec, as src/log.go only stores the field.) -/
theorem C6_err_query (s : ErrorStream) (t : AuditStream)
    (i : List (DecItem ErrResponse)) (j : List (DecItem AuditResponse))
    (c c' : Option (Option GoError)) :
    s.Err = s.err ∧ t.Err = t.err ∧
      (s.err = none → s.Err = none) ∧ (t.err = none → t.Err = none) ∧
      (∀ e, s.err = some e → s.Err = some e) ∧
      (∀ e, t.err = some e → t.Err = some e) ∧
      (NewErrorStream i c).Err = none ∧ (NewAuditStream j c').Err = none :=
  ⟨rfl, rfl, fun h => h, fun h => h, fun _ h => h, fun _ h => h, rfl, rfl⟩

/-- C8: once a stream is closed or errored, `Next` returns false at once
and leaves the whole state (in particular the decoder) untouched — no
read happens. -/
theorem C8_terminal_advance_no_io (s : ErrorStream) (t : AuditStream)
    (hs : s.closed = true ∨ s.err.isSome = true)
    (ht : t.closed = true ∨ t.err.isSome = true) :
    s.Next = (false, s) ∧ t.Next = (false, t) := by
  constructor
  · rcases hs with h | h <;> simp [ErrorStream.Next, h]
  · rcases ht with h | h <;> simp [AuditStream.Next, h]

/-- Witness for C8: a closed error stream and an errored audit stream,
both with records still pending in the decoder. -/
theorem C8_terminal_advance_no_io_witness :
    ((⟨⟨[.ok ⟨"a"⟩], none⟩, none, ⟨""⟩, none, true, 0⟩ : ErrorStream).closed = true ∨
        (⟨⟨[.ok ⟨"a"⟩], none⟩, none, ⟨""⟩, none, true, 0⟩ : ErrorStream).err.isSome = true) ∧
      ((⟨⟨[], none⟩, none, ⟨"", "", "", "", 0, 0⟩, some (.decodeSyntax "x"), false, 0⟩ :
            AuditStream).closed = true ∨
        (⟨⟨[], none⟩, none, ⟨"", "", "", "", 0, 0⟩, some (.decodeSyntax "x"), false, 0⟩ :
            AuditStream).err.isSome = true) ∧
      ((⟨⟨[.ok ⟨"a"⟩], none⟩, none, ⟨""⟩, none, true, 0⟩ : ErrorStream).Next =
          (false, ⟨⟨[.ok ⟨"a"⟩], none⟩, none, ⟨""⟩, none, true, 0⟩) ∧
        (⟨⟨[], none⟩, none, ⟨"", "", "", "", 0, 0⟩, some (.decodeSyntax "x"), false, 0⟩ :
              AuditStream).Next =
          (false, ⟨⟨[], none⟩, none, ⟨"", "", "", "", 0, 0⟩,
                   some (.decodeSyntax "x"), false, 0⟩)) :=
  ⟨Or.inl rfl, Or.inr rfl,
    C8_terminal_advance_no_io _ _ (Or.inl rfl) (Or.inr rfl)⟩

/-- C10: `WriteTo` never modifies the stored current event: after the
call, `Event()` returns exactly what it returned before, on both stream
types and for every sink behaviour. -/
theorem C10_writeTo_preserves_event (s : ErrorStream) (t : AuditStream)
    (w w' : List SinkStep) :
    ((s.WriteTo w).2).Event = s.Event ∧ ((t.WriteTo w').2).Event = t.Event := by
  constructor
  · simpa [ErrorStream.WriteTo, ErrorStream.Event] using
      ErrorStream.writeToLoop_event s.decoder.input.length s ⟨w, 0⟩ le_rfl
  · simpa [AuditStream.WriteTo, AuditStream.Event] using
      AuditStream.writeToLoop_event_a t.decoder.input.length t ⟨w', 0⟩ le_rfl

theorem ErrorStream.close_sets_closed (s : ErrorStream) :
    (s.Close.2).closed = true := by
  by_cases hcl : s.closed = true
  · rw [ErrorStream.close_closed hcl]; exact hcl
  · replace hcl : s.closed = false := by simpa using hcl
    cases hc : s.closer with
    | none => simp [ErrorStream.close_open_noCloser hcl hc]
    | some res =>
      by_cases he : s.err = none
      · simp [ErrorStream.close_open_closer_noErr hcl hc he]
      · simp [ErrorStream.close_open_closer_err hcl hc he]

theorem ErrorStream.close_preserves_err {s : ErrorStream} (he : s.err ≠ none) :
    (s.Close.2).err = s.err := by
  by_cases hcl : s.closed = true
  · rw [ErrorStream.close_closed hcl]
  · replace hcl : s.closed = false := by simpa using hcl
    cases hc : s.closer with
    | none => simp [ErrorStream.close_open_noCloser hcl hc]
    | some res => simp [ErrorStream.close_open_closer_err hcl hc he]

theorem ErrorStream.close_calls_le (s : ErrorStream) :
    (s.Close.2).closerCalls ≤ s.closerCalls + 1 := by
  by_cases hcl : s.closed = true
  · rw [ErrorStream.close_closed hcl]; exact Nat.le_succ _
  · replace hcl : s.closed = false := by simpa using hcl
    cases hc : s.closer with
    | none => simp [ErrorStream.close_open_noCloser hcl hc]
    | some res =>
      by_cases he : s.err = none
      · simp [ErrorStream.close_open_closer_noErr hcl hc he]
      · simp [ErrorStream.close_open_closer_err hcl hc he]

theorem AuditStream.close_sets_closed_a (s : AuditStream) :
    (s.Close.2).closed = true := by
  by_cases hcl : s.closed = true
  · rw [AuditStream.close_closed_a hcl]; exact hcl
  · replace hcl : s.closed = false := by simpa using hcl
    cases hc : s.closer with
    | none => simp [AuditStream.close_open_noCloser_a hcl hc]
    | some res =>
      by_cases he : s.err = none
      · simp [AuditStream.close_open_closer_noErr_a hcl hc he]
      · simp [AuditStream.close_open_closer_err_a hcl hc he]

theorem AuditStream.close_preserves_err_a {s : AuditStream} (he : s.err ≠ none) :
    (s.Close.2).err = s.err := by
  by_cases hcl : s.closed = true
  · rw [AuditStream.close_closed_a hcl]
  · replace hcl : s.closed = false := by simpa using hcl
    cases hc : s.closer with
    | none => simp [AuditStream.close_open_noCloser_a hcl hc]
    | some res => simp [AuditStream.close_open_closer_err_a hcl hc he]

theorem AuditStream.close_calls_le_a (s : AuditStream) :
    (s.Close.2).closerCalls ≤ s.closerCalls + 1 := by
  by_cases hcl : s.closed = true
  · rw [AuditStream.close_closed_a hcl]; exact Nat.le_succ _
  · replace hcl : s.closed = false := by simpa using hcl
    cases hc : s.closer with
    | none => simp [AuditStream.close_open_noCloser_a hcl hc]
    | some res =>
      by_cases he : s.err = none
      · simp [AuditStream.close_open_closer_noErr_a hcl hc he]
      · simp [AuditStream.close_open_closer_err_a hcl hc he]

/-- An error stream that has stored a decode error (from `Next` on a
malformed record) while its closable reader is still open: the state on
which the C3 idempotent-return claim fails. -/
def c3Stream : ErrorStream :=
  ((NewErrorStream [.bad (.decodeSyntax "not json")] (some none)).Next).2

/-- C3 counterexample: on a stream that stored a decode error before
being closed (closable reader whose close succeeds), the first `Close()`
returns nil while the second returns the stored decode error — two calls
do not yield the same error, contradicting the claim as stated. -/
theorem C3_counterexample :
    c3Stream.err = some (.decodeSyntax "not json") ∧
      c3Stream.closed = false ∧
      (c3Stream.Close).1 = none ∧
      ((c3Stream.Close).2.Close).1 = some (.decodeSyntax "not json") ∧
      (c3Stream.Close).1 ≠ ((c3Stream.Close).2.Close).1 := by
  refine ⟨by decide, by decide, by decide, by decide, by decide⟩

/-- The amended C3 property for one `ErrorStream`: the first `Close`
marks the stream closed and invokes the underlying closer at most once,
subsequent calls return the stored sticky error with no side effects,
the close error is stored only when no error was present, and the two
calls return the same error whenever no error was stored beforehand —
but when a closer is present the first call returns the closer's own
error, not the stored one. -/
def C3ErrProp (s : ErrorStream) : Prop :=
  ((s.Close.2).Close = ((s.Close.2).err, s.Close.2)) ∧
    (s.Close.2).closed = true ∧
    (s.Close.2).closerCalls ≤ s.closerCalls + 1 ∧
    ((s.Close.2).Close.2).closerCalls = (s.Close.2).closerCalls ∧
    (s.closed = true → s.Close = (s.err, s)) ∧
    (s.err ≠ none → (s.Close.2).err = s.err) ∧
    (s.err = none → s.Close.1 = ((s.Close.2).Close).1) ∧
    (∀ res, s.closed = false → s.closer = some res → s.Close.1 = res)

/-- The amended C3 property for one `AuditStream`. -/
def C3AudProp (s : AuditStream) : Prop :=
  ((s.Close.2).Close = ((s.Close.2).err, s.Close.2)) ∧
    (s.Close.2).closed = true ∧
    (s.Close.2).closerCalls ≤ s.closerCalls + 1 ∧
    ((s.Close.2).Close.2).closerCalls = (s.Close.2).closerCalls ∧
    (s.closed = true → s.Close = (s.err, s)) ∧
    (s.err ≠ none → (s.Close.2).err = s.err) ∧
    (s.err = none → s.Close.1 = ((s.Close.2).Close).1) ∧
    (∀ res, s.closed = false → s.closer = some res → s.Close.1 = res)

theorem ErrorStream.c3_close_aux (s : ErrorStream) : C3ErrProp s := by
  have hb := ErrorStream.close_sets_closed s
  have ha := ErrorStream.close_closed hb
  refine ⟨ha, hb, ErrorStream.close_calls_le s, by rw [ha], fun h => ErrorStream.close_closed h,
    fun he => ErrorStream.close_preserves_err he, ?_, ?_⟩
  · intro he
    rw [ha]
    by_cases hcl : s.closed = true
    · simp [ErrorStream.close_closed hcl]
    · replace hcl : s.closed = false := by simpa using hcl
      cases hc : s.closer with
      | none => simp [ErrorStream.close_open_noCloser hcl hc]
      | some res => simp [ErrorStream.close_open_closer_noErr hcl hc he]
  · intro res hcl hc
    by_cases he : s.err = none
    · simp [ErrorStream.close_open_closer_noErr hcl hc he]
    · simp [ErrorStream.close_open_closer_err hcl hc he]

theorem AuditStream.c3_close_aux_a (s : AuditStream) : C3AudProp s := by
  have hb := AuditStream.close_sets_closed_a s
  have ha := AuditStream.close_closed_a hb
  refine ⟨ha, hb, AuditStream.close_calls_le_a s, by rw [ha], fun h => AuditStream.close_closed_a h,
    fun he => AuditStream.close_preserves_err_a he, ?_, ?_⟩
  · intro he
    rw [ha]
    by_cases hcl : s.closed = true
    · simp [AuditStream.close_closed_a hcl]
    · replace hcl : s.closed = false := by simpa using hcl
      cases hc : s.closer with
      | none => simp [AuditStream.close_open_noCloser_a hcl hc]
      | some res => simp [AuditStream.close_open_closer_noErr_a hcl hc he]
  · intro res hcl hc
    by_cases he : s.err = none
    · simp [AuditStream.close_open_closer_noErr_a hcl hc he]
    · simp [AuditStream.close_open_closer_err_a hcl hc he]

/-- C3 (amended): `Close()` marks the stream closed, releases the
underlying resource at most once (never on later calls), stores the close
error only when no error was previously stored, and subsequent calls
return the stored sticky error without side effects.  Two calls return
the same error whenever no error was stored before the first; when a
closer is present the first call returns the closer's error itself. -/
theorem C3_close_idempotent_amended (s : ErrorStream) (t : AuditStream) :
    C3ErrProp s ∧ C3AudProp t :=
  ⟨ErrorStream.c3_close_aux s, AuditStream.c3_close_aux_a t⟩

/-- An error stream whose explicit `Close()` stored the closer's failure
while a malformed record is still pending in the decoder. -/
def c4Stream : ErrorStream :=
  ((NewErrorStream [.bad (.decodeSyntax "broken")]
      (some (some (.closeFailed "close fail")))).Close).2

/-- C4 counterexample: after `Close()` stores a close error, a subsequent
`WriteTo` call replaces that stored error with the decode error of the
pending malformed record — the first stored error is not sticky across
`WriteTo`. -/
theorem C4_counterexample :
    c4Stream.err = some (.closeFailed "close fail") ∧
      ((c4Stream.WriteTo []).2).err = some (.decodeSyntax "broken") ∧
      ((c4Stream.WriteTo []).2).err ≠ c4Stream.err := by
  have hd : c4Stream.decoder.decode =
      (.failRes (.decodeSyntax "broken"),
       ⟨[.bad (.decodeSyntax "broken")], some (.decodeSyntax "broken")⟩) := by decide
  have hw : (c4Stream.WriteTo []).2 =
      {c4Stream with decoder := ⟨[.bad (.decodeSyntax "broken")],
                                 some (.decodeSyntax "broken")⟩,
                     err := some (.decodeSyntax "broken")} := by
    rw [show c4Stream.WriteTo [] = c4Stream.writeToLoop ⟨[], 0⟩ from rfl,
      ErrorStream.writeToLoop_fail hd]
  refine ⟨by decide, by rw [hw], by rw [hw]; decide⟩

/-- C4 (amended): once a non-nil error is stored, `Next` returns false
and leaves the stream untouched, `Close` never replaces it (it only fills
a nil error), and the error query reports it; `WriteTo`, however, does
not consult the stored error and may replace it with a newly encountered
error. -/
theorem C4_first_error_sticky_amended (s : ErrorStream) (t : AuditStream)
    (e e' : GoError) (hs : s.err = some e) (ht : t.err = some e') :
    s.Next = (false, s) ∧ (s.Close.2).err = some e ∧ s.Err = some e ∧
      t.Next = (false, t) ∧ (t.Close.2).err = some e' ∧ t.Err = some e' := by
  refine ⟨by simp [ErrorStream.Next, hs], ?_, hs, by simp [AuditStream.Next, ht], ?_, ht⟩
  · rw [ErrorStream.close_preserves_err (by simp [hs]), hs]
  · rw [AuditStream.close_preserves_err_a (by simp [ht]), ht]

/-- Witness for the amended C4 at concrete errored streams. -/
theorem C4_first_error_sticky_amended_witness :
    (⟨⟨[], none⟩, none, ⟨""⟩, some (.decodeSyntax "x"), false, 0⟩ : ErrorStream).err =
        some (.decodeSyntax "x") ∧
      (⟨⟨[], none⟩, none, ⟨"", "", "", "", 0, 0⟩, some (.closeFailed "y"), true, 1⟩ :
          AuditStream).err = some (.closeFailed "y") ∧
      ((⟨⟨[], none⟩, none, ⟨""⟩, some (.decodeSyntax "x"), false, 0⟩ : ErrorStream).Next =
          (false, ⟨⟨[], none⟩, none, ⟨""⟩, some (.decodeSyntax "x"), false, 0⟩) ∧
        ((⟨⟨[], none⟩, none, ⟨""⟩, some (.decodeSyntax "x"), false, 0⟩ :
            ErrorStream).Close.2).err = some (.decodeSyntax "x") ∧
        (⟨⟨[], none⟩, none, ⟨""⟩, some (.decodeSyntax "x"), false, 0⟩ :
            ErrorStream).Err = some (.decodeSyntax "x") ∧
        (⟨⟨[], none⟩, none, ⟨"", "", "", "", 0, 0⟩, some (.closeFailed "y"), true, 1⟩ :
            AuditStream).Next =
          (false, ⟨⟨[], none⟩, none, ⟨"", "", "", "", 0, 0⟩, some (.closeFailed "y"), true, 1⟩) ∧
        ((⟨⟨[], none⟩, none, ⟨"", "", "", "", 0, 0⟩, some (.closeFailed "y"), true, 1⟩ :
            AuditStream).Close.2).err = some (.closeFailed "y") ∧
        (⟨⟨[], none⟩, none, ⟨"", "", "", "", 0, 0⟩, some (.closeFailed "y"), true, 1⟩ :
            AuditStream).Err = some (.closeFailed "y")) :=
  ⟨rfl, rfl, C4_first_error_sticky_amended _ _ _ _ rfl rfl⟩

/-- A closed (explicitly, with no error) error stream whose decoder still
holds a malformed record: a state on which C5's equivalence fails. -/
def c5Stream : ErrorStream :=
  ((NewErrorStream [.bad (.decodeSyntax "junk")] none).Close).2

/-- A fresh, Open error stream over one valid record: relayed into a
rejecting sink, the other input on which C5's equivalence fails. -/
def c5SinkStream : ErrorStream := NewErrorStream [.ok ⟨"a"⟩] none

/-- A sink whose first write accepts 0 bytes and fails. -/
def c5Sink : List SinkStep := [.failAfter 0 (.writeFailed "sink refuses")]

/-- C5 counterexample, refuting the claim for both kinds of input it
quantifies over.  First, on an already-closed stream, `WriteTo` keeps
decoding and stores a decode error, while repeated `Next` calls return
false immediately and leave the state untouched — the terminal stored
errors differ.  Second, on an Open stream over one valid record with a
sink that rejects the write, `WriteTo` stores the write error and leaves
the stream unclosed, while manual iteration decodes to end-of-input and
closes cleanly — the terminal closed flags (and errors) differ. -/
theorem C5_counterexample :
    (c5Stream.closed = true ∧ c5Stream.err = none ∧
      ((c5Stream.WriteTo []).2).err = some (.decodeSyntax "junk") ∧
      (c5Stream.iterate).err = none ∧
      ((c5Stream.WriteTo []).2).err ≠ (c5Stream.iterate).err) ∧
    (c5SinkStream.closed = false ∧ c5SinkStream.err = none ∧
      ((c5SinkStream.WriteTo c5Sink).2).err = some (.writeFailed "sink refuses") ∧
      ((c5SinkStream.WriteTo c5Sink).2).closed = false ∧
      (c5SinkStream.iterate).err = none ∧
      (c5SinkStream.iterate).closed = true ∧
      ((c5SinkStream.WriteTo c5Sink).2).closed ≠ (c5SinkStream.iterate).closed ∧
      ((c5SinkStream.WriteTo c5Sink).2).err ≠ (c5SinkStream.iterate).err) := by
  have hd : c5Stream.decoder.decode =
      (.failRes (.decodeSyntax "junk"),
       ⟨[.bad (.decodeSyntax "junk")], some (.decodeSyntax "junk")⟩) := by decide
  have hw : (c5Stream.WriteTo []).2 =
      {c5Stream with decoder := ⟨[.bad (.decodeSyntax "junk")],
                                 some (.decodeSyntax "junk")⟩,
                     err := some (.decodeSyntax "junk")} := by
    rw [show c5Stream.WriteTo [] = c5Stream.writeToLoop ⟨[], 0⟩ from rfl,
      ErrorStream.writeToLoop_fail hd]
  have hnx : c5Stream.Next = (false, c5Stream) := by decide
  have hit : c5Stream.iterate = c5Stream := ErrorStream.iterate_false hnx
  have hd2 : c5SinkStream.decoder.decode = (.okRes ⟨"a"⟩, ⟨[], none⟩) := by decide
  have hw2 : (CountWriter.mk c5Sink 0).write (encodeErrResponse ⟨"a"⟩) =
      (some (.writeFailed "sink refuses"), ⟨[], 0⟩) := by decide
  have hwt : (c5SinkStream.WriteTo c5Sink).2 =
      {c5SinkStream with decoder := ⟨[], none⟩,
                         err := some (.writeFailed "sink refuses")} := by
    rw [show c5SinkStream.WriteTo c5Sink = c5SinkStream.writeToLoop ⟨c5Sink, 0⟩ from rfl,
      ErrorStream.writeToLoop_ok_werr hd2 hw2]
  have hnx1 : c5SinkStream.Next =
      (true, {c5SinkStream with decoder := ⟨[], none⟩, event := ⟨"a"⟩}) := by decide
  have hnx2 : ({c5SinkStream with decoder := ⟨[], none⟩,
                                  event := ⟨"a"⟩} : ErrorStream).Next =
      (false, {c5SinkStream with decoder := ⟨[], none⟩, event := ⟨"a"⟩,
                                 closed := true, err := none}) := by decide
  have hit2 : c5SinkStream.iterate =
      {c5SinkStream with decoder := ⟨[], none⟩, event := ⟨"a"⟩,
                         closed := true, err := none} := by
    rw [ErrorStream.iterate_true hnx1, ErrorStream.iterate_false hnx2]
  refine ⟨⟨by decide, by decide, by rw [hw], by rw [hit]; decide,
            by rw [hw, hit]; decide⟩,
          by decide, by decide, by rw [hwt], by rw [hwt]; decide,
          by rw [hit2], by rw [hit2], by rw [hwt, hit2]; decide,
          by rw [hwt, hit2]; decide⟩

/-- The amended C5 property for one `ErrorStream`: on an Open, un-errored
stream relayed into an all-accepting sink, `WriteTo` leaves the stream in
exactly the state (decoder position, closer, stored error, closed flag,
closer invocations) reached by calling `Next` until it reports false. -/
def C5ErrProp (s : ErrorStream) : Prop :=
  ((s.WriteTo []).2).decoder = s.iterate.decoder ∧
    ((s.WriteTo []).2).closer = s.iterate.closer ∧
    ((s.WriteTo []).2).err = s.iterate.err ∧
    ((s.WriteTo []).2).closed = s.iterate.closed ∧
    ((s.WriteTo []).2).closerCalls = s.iterate.closerCalls

/-- The amended C5 property for one `AuditStream`. -/
def C5AudProp (s : AuditStream) : Prop :=
  ((s.WriteTo []).2).decoder = s.iterate.decoder ∧
    ((s.WriteTo []).2).closer = s.iterate.closer ∧
    ((s.WriteTo []).2).err = s.iterate.err ∧
    ((s.WriteTo []).2).closed = s.iterate.closed ∧
    ((s.WriteTo []).2).closerCalls = s.iterate.closerCalls

/-- C5 (amended): for streams that are neither Closed nor Errored,
`WriteTo` into a sink that accepts every write mutates the decoder
position and the state fields exactly as iterating `Next` to completion
does.  Both restrictions are forced by the counterexample: on Closed or
Errored streams `WriteTo` still drains the decoder (while `Next` is
guarded), and with a rejecting sink `WriteTo` stores the write error
without closing, while iteration closes cleanly. -/
theorem C5_writeTo_iterate_amended (s : ErrorStream) (t : AuditStream)
    (hs1 : s.closed = false) (hs2 : s.err = none)
    (ht1 : t.closed = false) (ht2 : t.err = none) :
    C5ErrProp s ∧ C5AudProp t :=
  ⟨ErrorStream.writeTo_iterate_aux s.decoder.input.length s 0 le_rfl hs1 hs2,
    AuditStream.writeTo_iterate_aux_a t.decoder.input.length t 0 le_rfl ht1 ht2⟩

/-- Witness for the amended C5 at fresh streams over a good record then a
malformed one. -/
theorem C5_writeTo_iterate_amended_witness :
    (NewErrorStream [.ok ⟨"a"⟩, .bad (.decodeSyntax "x")] none).closed = false ∧
      (NewErrorStream [.ok ⟨"a"⟩, .bad (.decodeSyntax "x")] none).err = none ∧
      (NewAuditStream [.ok ⟨"", "", "", "", 0, 0⟩] (some none)).closed = false ∧
      (NewAuditStream [.ok ⟨"", "", "", "", 0, 0⟩] (some none)).err = none ∧
      (C5ErrProp (NewErrorStream [.ok ⟨"a"⟩, .bad (.decodeSyntax "x")] none) ∧
        C5AudProp (NewAuditStream [.ok ⟨"", "", "", "", 0, 0⟩] (some none))) :=
  ⟨rfl, rfl, rfl, rfl,
    C5_writeTo_iterate_amended _ _ rfl rfl rfl rfl⟩

/-- The C7 property over N valid records: `WriteTo` returns the sum of
the encoded sizes of the N re-encoded records and a nil error. -/
def C7OkProp (rs : List ErrResponse) (c : Option (Option GoError)) : Prop :=
  ((NewErrorStream (rs.map .ok) c).WriteTo []).1 = (sumEncodedErr rs, none)

/-- The C7 property with a malformed record at position k (k − 1 = the
number of leading valid records): `WriteTo` returns the bytes of the
first k − 1 re-encoded records together with the decode error. -/
def C7BadProp (rs : List ErrResponse) (e : GoError)
    (rest : List (DecItem ErrResponse)) (c : Option (Option GoError)) : Prop :=
  ((NewErrorStream (rs.map .ok ++ .bad e :: rest) c).WriteTo []).1 =
    (sumEncodedErr rs, some e)

/-- C7: over N valid records (close succeeding or no closer) `WriteTo`
returns the sum of the encoded sizes of all N re-encoded records with a
nil error; with a malformed record at position k it returns the bytes of
the first k−1 records and the decode error. -/
theorem C7_writeTo_byte_counts (rs qs : List ErrResponse)
    (c c2 : Option (Option GoError)) (hc : c = none ∨ c = some none)
    (e : GoError) (rest : List (DecItem ErrResponse)) :
    C7OkProp rs c ∧ C7BadProp qs e rest c2 := by
  constructor
  · have h := ErrorStream.writeToLoop_bytes_ok rs (NewErrorStream (rs.map .ok) c) 0
      rfl rfl (by rfl) (by simpa using hc)
    simpa [C7OkProp, ErrorStream.WriteTo] using h
  · have h := ErrorStream.writeToLoop_bytes_bad qs
      (NewErrorStream (qs.map .ok ++ .bad e :: rest) c2) 0 e rest (by rfl)
    simpa [C7BadProp, ErrorStream.WriteTo] using h

/-- Witness for C7: one valid record with no closer, and a valid record
followed by a malformed one behind a succeeding closer. -/
theorem C7_writeTo_byte_counts_witness :
    ((none : Option (Option GoError)) = none ∨
        (none : Option (Option GoError)) = some none) ∧
      (C7OkProp [⟨"a"⟩] none ∧
        C7BadProp [⟨"b"⟩] (.decodeSyntax "oops") [] (some none)) :=
  ⟨Or.inl rfl,
    C7_writeTo_byte_counts [⟨"a"⟩] [⟨"b"⟩] none (some none) (Or.inl rfl)
      (.decodeSyntax "oops") []⟩

/-- The audit wire record of C9, with the response duration written as
the string `"15ms"`. -/
def c9Record : Json :=
  .obj [("time", .str "2024-01-01T00:00:00Z"),
        ("request", .obj [("ip", .str "10.0.0.1"),
                          ("path", .str "/v1/key/create"),
                          ("identity", .str "abc123")]),
        ("response", .obj [("code", .num 200), ("time", .str "15ms")])]

/-- The same record with the response duration as an integer nanosecond
count (15ms = 15000000ns), which is what `time.Duration` unmarshals. -/
def c9RecordFixed : Json :=
  .obj [("time", .str "2024-01-01T00:00:00Z"),
        ("request", .obj [("ip", .str "10.0.0.1"),
                          ("path", .str "/v1/key/create"),
                          ("identity", .str "abc123")]),
        ("response", .obj [("code", .num 200), ("time", .num 15000000)])]

/-- C9 counterexample: the record with `"response":{"code":200,
"time":"15ms"}` does not decode — `time.Duration` is a bare `int64`
with no JSON unmarshaler, so the string `"15ms"` is an
`UnmarshalTypeError` — and `AuditStream.Next` on it returns false with a
decode error stored, contradicting the claimed successful decode. -/
theorem C9_counterexample :
    decodeAuditResponse c9Record = .error (.decodeType "response.time") ∧
      decItemOfJson c9Record = .bad (.decodeType "response.time") ∧
      (NewAuditStream [decItemOfJson c9Record] none).Next.1 = false ∧
      ((NewAuditStream [decItemOfJson c9Record] none).Next.2).err =
        some (.decodeType "response.time") := by
  refine ⟨rfl, rfl, by decide, by decide⟩

/-- C9 (amended): the wire duration must be a JSON number of nanoseconds;
with `"time":15000000` (15ms) the record decodes successfully, and
`AuditStream.Next` returns true with an `AuditEvent` whose Timestamp,
ClientIP, APIPath, ClientIdentity and ResponseTime match the wire fields
and whose StatusCode is 200; the string `"15ms"` is instead a decode
error. -/
theorem C9_audit_record_decodes_amended :
    decodeAuditResponse c9RecordFixed =
        .ok ⟨"2024-01-01T00:00:00Z", "10.0.0.1", "/v1/key/create",
             "abc123", 200, 15000000⟩ ∧
      (NewAuditStream [decItemOfJson c9RecordFixed] none).Next.1 = true ∧
      ((NewAuditStream [decItemOfJson c9RecordFixed] none).Next.2).Event =
        ⟨"2024-01-01T00:00:00Z", "/v1/key/create", "10.0.0.1",
         "abc123", 200, 15000000⟩ ∧
      (15000000 : GoDuration) = 15 * 1000000 := by
  refine ⟨rfl, by decide, by decide, by norm_num⟩

end Kes
